import Mathlib

/-!
Verification of the KNIME Smartsheet extension (writer/reader nodes).

Shallow embedding of `src/knime_extension/src/nodes/writer.py` (and the
credential parsing shared with `reader.py`).  Python scalar values are
modelled by the sum type `PValue` (Bool / Int / exact rational in place of
IEEE floats / String); a pandas cell value is an `Option PValue`, where
`Option.none` models a null/missing value (Python `None`, and the `NaN`
missing sentinel as far as `pd.isna` is concerned; the `NaN ≠ NaN`
comparison quirk is outside the model, no claim depends on it).
Fallible Python casts (`int(...)`, `float(...)`) are modelled as
`Option`-returning functions; `Option.none` stands for the cast raising.
String-to-number parsing covers the plain literal forms (optional sign,
digits, decimal point, exponent); Python's tolerance for surrounding
whitespace and underscore separators is omitted, no claim depends on it.
-/

/-- A (non-null) Python scalar as it occurs in the input dataframe and in
Smartsheet cells: bool, int, float (modelled exactly as a rational), or str. -/
inductive PValue : Type where
  | bool (b : Bool)
  | int (n : Int)
  | float (q : ℚ)
  | str (s : String)
deriving DecidableEq, Repr

/-- A possibly-null Python value; `Option.none` is null/missing (`pd.isna`). -/
abbrev PyVal := Option PValue

/-- Python truthiness (`bool(v)`): zero numbers and the empty string are falsy. -/
def pyBool : PValue → Bool
  | .bool b => b
  | .int n => decide (n ≠ 0)
  | .float q => decide (q ≠ 0)
  | .str s => decide (s ≠ "")

/-- Value of a digit string, most significant digit first. -/
def digitsVal (l : List Char) : Nat :=
  l.foldl (fun a c => a * 10 + (c.toNat - 48)) 0

/-- Strip an optional leading sign; `true` means negative. -/
def parseSign : List Char → Bool × List Char
  | '-' :: r => (true, r)
  | '+' :: r => (false, r)
  | l => (false, l)

/-- Split a character list into its leading digit run and the remainder. -/
def takeDigits (l : List Char) : List Char × List Char :=
  (l.takeWhile Char.isDigit, l.dropWhile Char.isDigit)

/-- Python `int(s)` on a string: optional sign followed by a non-empty digit
run; anything else raises (`Option.none`). -/
def parseIntStr (s : String) : Option Int :=
  let p := parseSign s.toList
  let d := takeDigits p.2
  if d.1 ≠ [] ∧ d.2 = [] then
    some (if p.1 then -(digitsVal d.1 : Int) else (digitsVal d.1 : Int))
  else Option.none

/-- Split a float literal at the first `e`/`E` (mantissa, optional exponent part). -/
def splitOnExp : List Char → List Char × Option (List Char)
  | [] => ([], Option.none)
  | c :: r =>
    if c = 'e' ∨ c = 'E' then ([], some r)
    else
      let p := splitOnExp r
      (c :: p.1, p.2)

/-- Mantissa of a float literal: `digits`, `digits.digits`, `digits.` or `.digits`. -/
def parseMantissa (l : List Char) : Option ℚ :=
  let p := takeDigits l
  match p.2 with
  | [] => if p.1 ≠ [] then some (digitsVal p.1 : ℚ) else Option.none
  | '.' :: r2 =>
    let p2 := takeDigits r2
    if p2.2 = [] ∧ (p.1 ≠ [] ∨ p2.1 ≠ []) then
      some ((digitsVal p.1 : ℚ) + (digitsVal p2.1 : ℚ) / ((10 : ℚ) ^ p2.1.length))
    else Option.none
  | _ => Option.none

/-- Exponent part of a float literal: optional sign and a non-empty digit run. -/
def parseExp (l : List Char) : Option Int :=
  let p := parseSign l
  let d := takeDigits p.2
  if d.1 ≠ [] ∧ d.2 = [] then
    some (if p.1 then -(digitsVal d.1 : Int) else (digitsVal d.1 : Int))
  else Option.none

/-- Python `float(s)` on a string, for plain finite literals; anything else
raises (`Option.none`).  (`inf`/`nan` literals are outside the rational model.) -/
def parseFloatStr (s : String) : Option ℚ :=
  let p := parseSign s.toList
  let me := splitOnExp p.2
  match parseMantissa me.1, me.2 with
  | some q, Option.none => some (if p.1 then -q else q)
  | some q, some ec =>
    (parseExp ec).map (fun ex => if p.1 then -(q * (10 : ℚ) ^ ex) else q * (10 : ℚ) ^ ex)
  | Option.none, _ => Option.none

/-- Truncation toward zero, the semantics of Python `int(float)`. -/
def ratTrunc (q : ℚ) : Int := if 0 ≤ q then ⌊q⌋ else ⌈q⌉

/-- Python `int(v)` on a non-null scalar; `Option.none` models the cast raising. -/
def pyInt : PValue → Option Int
  | .bool b => some (if b then 1 else 0)
  | .int n => some n
  | .float q => some (ratTrunc q)
  | .str s => parseIntStr s

/-- Python `float(v)` on a non-null scalar; `Option.none` models the cast raising.
(Overflow of huge-int-to-float conversion is outside the rational model.) -/
def pyFloat : PValue → Option ℚ
  | .bool b => some (if b then 1 else 0)
  | .int n => some (n : ℚ)
  | .float q => some q
  | .str s => parseFloatStr s

/-- Python `str(v)` on a non-null scalar.  The float branch abstracts Python's
float repr; it is unreachable from the coercion fallback (both numeric casts
succeed on floats). -/
def pyStr : PValue → String
  | .bool b => if b then "True" else "False"
  | .int n => toString n
  | .float q => toString q
  | .str s => s

/-- `SmartsheetWriterNode.get_smartsheet_cell_value` (writer.py lines 127-141):
null/missing becomes `""`; a CHECKBOX destination takes Python truthiness;
otherwise `float(int(v)) == float(v)` selects `int(v)`, an unequal pair selects
`float(v)`, and any raising cast falls back to `str(v)`. -/
def get_smartsheet_cell_value (pd_value : PyVal) (col_type : String) : PValue :=
  match pd_value with
  | Option.none => .str ""
  | some v =>
    if col_type = "CHECKBOX" then .bool (pyBool v)
    else
      match pyInt v, pyFloat v with
      | some n, some q => if (n : ℚ) = q then .int n else .float q
      | _, _ => .str (pyStr v)

/-- Modelled from the spec's words (§4.1), for the refinement comparison of the
coercion claim: null → `""`; CHECKBOX → truthiness; an integer whose integer
cast round-trips to its float cast → int; \"else if it is exactly representable
as a floating-point number, emit a float\"; else the string representation. -/
def coerce_specification (pd_value : PyVal) (col_type : String) : PValue :=
  match pd_value with
  | Option.none => .str ""
  | some v =>
    if col_type = "CHECKBOX" then .bool (pyBool v)
    else
      match pyInt v, pyFloat v with
      | some n, some q => if (n : ℚ) = q then .int n else .float q
      | Option.none, some q => .float q
      | _, _ => .str (pyStr v)

/-- The coercion claim amended to what the code does: int when both numeric
casts succeed and agree, float when both succeed and disagree, and the string
representation as soon as either cast fails. -/
def coerce_amended (pd_value : PyVal) (col_type : String) : PValue :=
  match pd_value with
  | Option.none => .str ""
  | some v =>
    if col_type = "CHECKBOX" then .bool (pyBool v)
    else if h : (pyInt v).isSome ∧ (pyFloat v).isSome then
      let n := (pyInt v).get h.1
      let q := (pyFloat v).get h.2
      if (n : ℚ) = q then .int n else .float q
    else .str (pyStr v)

/-- Python `==` on non-null scalars: numbers (bool/int/float) compare by
numeric value (`True == 1 == 1.0`), strings compare as strings, and a string
never equals a number. -/
def pvEq (a b : PValue) : Bool :=
  match a, b with
  | .str s, .str t => decide (s = t)
  | .str _, _ => false
  | _, .str _ => false
  | .bool x, .bool y => decide (x = y)
  | .bool x, .int m => decide ((if x then 1 else 0 : Int) = m)
  | .bool x, .float q => decide ((if x then 1 else 0 : ℚ) = q)
  | .int n, .bool y => decide (n = (if y then 1 else 0 : Int))
  | .int n, .int m => decide (n = m)
  | .int n, .float q => decide ((n : ℚ) = q)
  | .float p, .bool y => decide (p = (if y then 1 else 0 : ℚ))
  | .float p, .int m => decide (p = (m : ℚ))
  | .float p, .float q => decide (p = q)

/-- Python `==` on possibly-null values: `None == None` is `True`, and `None`
equals no non-null scalar. -/
def pyEq : PyVal → PyVal → Bool
  | Option.none, Option.none => true
  | some a, some b => pvEq a b
  | _, _ => false

/-- Python `x in l` over a list of values (`list.__contains__`, elementwise `==`). -/
def pyMem (x : PyVal) (l : List PyVal) : Bool := l.any (fun y => pyEq y x)

/-! ### The data model of the writer's `execute` -/

/-- A Smartsheet cell: opaque column id and optional value (`cell.value`,
`Option.none` when the cell is empty / `None`). -/
structure SCell : Type where
  column_id : Nat
  value : PyVal
deriving DecidableEq, Repr

/-- A Smartsheet row: opaque row id and its cells. -/
structure SRow : Type where
  id : Nat
  cells : List SCell
deriving DecidableEq, Repr

/-- A Smartsheet column: opaque id, title and type string (e.g. `CHECKBOX`). -/
structure SColumn : Type where
  id : Nat
  title : String
  type : String
deriving DecidableEq, Repr

/-- The remote sheet snapshot returned by `smart.Sheets.get_sheet`. -/
structure SSheet : Type where
  columns : List SColumn
  rows : List SRow
deriving DecidableEq, Repr

/-- One row of the input pandas dataframe, as (column title, value) pairs. -/
abbrev InputRow := List (String × PyVal)

/-- The input pandas dataframe: ordered column titles and rows.  Column titles
are unique in a KNIME table; rows carry one entry per column. -/
structure InputTable : Type where
  cols : List String
  rows : List InputRow
deriving DecidableEq, Repr

/-- `row[title]` on a dataframe row; the default on a missing title stands in
for the `KeyError` the source would raise (the theorems' hypotheses keep every
access within the row's titles). -/
def rowGet (r : InputRow) (title : String) : PyVal :=
  match r.find? (fun p => p.1 = title) with
  | some p => p.2
  | Option.none => Option.none

/-- The writer node's configuration surface used by `execute`. -/
structure Config : Type where
  referenceColumn : String
  clearFirst : Bool
  addMissingRefs : Bool
deriving DecidableEq, Repr

/-- `SmartsheetWriterNode.removeOldRefs` (writer.py line 103): the orphan
removal option is hard-pinned off (its parameter UI is commented out). -/
def removeOldRefs : Bool := false

/-- A remote mutation issued by `execute`, in issue order. -/
inductive RemoteOp : Type where
  | deleteRows (ids : List Nat)
  | updateRows (rows : List SRow)
  | addRows (rows : List SRow)
deriving DecidableEq, Repr

/-! ### Python dict models (association lists in insertion order) -/

/-- Python `d[k] = v` for a dict with scalar keys compared by `==`: update the
existing entry in place, else append. -/
def pyDictInsert (d : List (PyVal × Nat)) (k : PyVal) (v : Nat) : List (PyVal × Nat) :=
  if d.any (fun p => pyEq p.1 k) then d.map (fun p => if pyEq p.1 k then (p.1, v) else p)
  else d ++ [(k, v)]

/-- Python `k in d.keys()` for a value-keyed dict. -/
def pyDictContains (d : List (PyVal × Nat)) (k : PyVal) : Bool := d.any (fun p => pyEq p.1 k)

/-- Python `d[k]` for a value-keyed dict (`Option.none` models `KeyError`). -/
def pyDictLookup (d : List (PyVal × Nat)) (k : PyVal) : Option Nat :=
  (d.find? (fun p => pyEq p.1 k)).map (fun p => p.2)

/-- Python `d[k] = v` for dicts keyed by ints or strings (decidable equality). -/
def alInsert {α β : Type} [DecidableEq α] (d : List (α × β)) (k : α) (v : β) : List (α × β) :=
  if d.any (fun p => p.1 = k) then d.map (fun p => if p.1 = k then (p.1, v) else p)
  else d ++ [(k, v)]

/-- Python `d[k]` for dicts keyed by ints or strings. -/
def alLookup {α β : Type} [DecidableEq α] (d : List (α × β)) (k : α) : Option β :=
  (d.find? (fun p => p.1 = k)).map (fun p => p.2)

/-- A dict built from a list of (key, value) pairs, later pairs overwriting
earlier ones — the semantics of a Python dict comprehension. -/
def buildDict {α β : Type} [DecidableEq α] (l : List (α × β)) : List (α × β) :=
  l.foldl (fun d p => alInsert d p.1 p.2) []

/-! ### The reconciliation plan (writer.py lines 206-220) -/

/-- The three accumulators of the remote-row scan: `output_ref_no_match`,
`output_ref_to_be_synced` and `output_data_to_be_synced` (writer.py 206-208). -/
structure PlanState : Type where
  output_ref_no_match : List PyVal
  output_ref_to_be_synced : List (PyVal × Nat)
  output_data_to_be_synced : List (Nat × SRow)
deriving DecidableEq, Repr

/-- The body of the cell loop (writer.py 212-217): a cell on the reference
column either records a match (key → row id, row id → row) or an orphan key. -/
def processCell (ref_column_id : Nat) (input_references : List PyVal) (row : SRow)
    (st : PlanState) (cell : SCell) : PlanState :=
  if cell.column_id = ref_column_id then
    if pyMem cell.value input_references then
      { st with
        output_ref_to_be_synced := pyDictInsert st.output_ref_to_be_synced cell.value row.id,
        output_data_to_be_synced := alInsert st.output_data_to_be_synced row.id row }
    else
      { st with output_ref_no_match := st.output_ref_no_match ++ [cell.value] }
  else st

/-- The row loop body (writer.py 210-211): visit the row's non-null cells. -/
def processRow (ref_column_id : Nat) (input_references : List PyVal)
    (st : PlanState) (row : SRow) : PlanState :=
  (row.cells.filter (fun c => c.value.isSome)).foldl (processCell ref_column_id input_references row) st

/-- The full remote-row scan (writer.py 210-217). -/
def buildPlan (ref_column_id : Nat) (input_references : List PyVal) (rows : List SRow) : PlanState :=
  rows.foldl (processRow ref_column_id input_references) ⟨[], [], []⟩

/-- `output_ref_missing` (writer.py 218-220): input references with no match. -/
def missingOf (input_references : List PyVal) (st : PlanState) : List PyVal :=
  input_references.filter (fun r => !(pyDictContains st.output_ref_to_be_synced r))

/-- The keys of `toUpdate` (`output_ref_to_be_synced.keys()`). -/
def planKeys (st : PlanState) : List PyVal := st.output_ref_to_be_synced.map (fun p => p.1)

/-- All non-null reference-column cell values of a row, in cell order — the
values the scan inspects on that row. -/
def rowRefValues (ref_column_id : Nat) (r : SRow) : List PyVal :=
  ((r.cells.filter (fun c => c.value.isSome)).filter (fun c => c.column_id = ref_column_id)).map
    (fun c => c.value)

/-- All non-null reference-column cell values of the sheet, in scan order:
the remote key multiset `R`. -/
def remoteRefValues (ref_column_id : Nat) (rows : List SRow) : List PyVal :=
  (rows.map (rowRefValues ref_column_id)).flatten

/-! ### The mutation builders and the execution trace (writer.py 143-297) -/

/-- `input_columns` (writer.py 179): the dataframe's column titles. -/
def inputColumns (input : InputTable) : List String := input.cols

/-- `output_columns` (writer.py 180-182): `{c.title: c.id for c in sheet.columns}`. -/
def outputColumns (sheet : SSheet) : List (String × Nat) :=
  buildDict (sheet.columns.map (fun c => (c.title, c.id)))

/-- `output_columns_name_by_id` (writer.py 183-185): `{v: k for k, v in output_columns.items()}`. -/
def outputColumnsNameById (sheet : SSheet) : List (Nat × String) :=
  buildDict ((outputColumns sheet).map (fun p => (p.2, p.1)))

/-- `columns_type` (writer.py 237): `{c.id: c.type for c in sheet.columns}`. -/
def columnsType (sheet : SSheet) : List (Nat × String) :=
  buildDict (sheet.columns.map (fun c => (c.id, c.type)))

/-- `ref_column_id` (writer.py 199), `Option.none` when the title is absent. -/
def refColumnIdOf (cfg : Config) (sheet : SSheet) : Option Nat :=
  alLookup (outputColumns sheet) cfg.referenceColumn

/-- `input_references` (writer.py 201-203): the reference column of the input. -/
def inputRefs (cfg : Config) (input : InputTable) : List PyVal :=
  input.rows.map (fun r => rowGet r cfg.referenceColumn)

/-- `indexed_input.loc[ref]` (writer.py 235, 245, 273): the input row whose
reference value compares `==` to `ref`.  pandas returns a single row only when
the key is unique; the default on no match stands in for the `KeyError` the
source would raise (never reached: `.loc` is only called on matched or missing
references, which all come from the input itself). -/
def inputLoc (cfg : Config) (input : InputTable) (ref : PyVal) : InputRow :=
  (input.rows.find? (fun r => pyEq (rowGet r cfg.referenceColumn) ref)).getD []

/-- `source_row.name` (writer.py 283): the index label of the row `.loc`
selected — its reference-column value, which `set_index` moved into the index. -/
def indexLabel (cfg : Config) (sourceRow : InputRow) : PyVal :=
  rowGet sourceRow cfg.referenceColumn

/-- `synced_columns` (writer.py 241): `set(input_columns) - {referenceColumn}`
(only membership is ever asked of it). -/
def syncedColumns (cfg : Config) (input : InputTable) : List String :=
  input.cols.filter (fun c => c ≠ cfg.referenceColumn)

/-- One update action (writer.py 242-262): for each cell of the matched remote
row whose column title is an input column other than the reference column,
emit that column id with the coerced input value.  A cell whose column id is
not a sheet column would raise `KeyError` at `output_columns_name_by_id[...]`
in the source; here it is skipped, and the theorems' hypotheses rule it out. -/
def buildUpdatedRow (cfg : Config) (sheet : SSheet) (input : InputTable)
    (ref : PyVal) (rowId : Nat) (targetRow : SRow) : SRow :=
  let sourceRow := inputLoc cfg input ref
  { id := rowId,
    cells := targetRow.cells.filterMap (fun oldCell =>
      match alLookup (outputColumnsNameById sheet) oldCell.column_id with
      | some title =>
        if title ∈ syncedColumns cfg input then
          some { column_id := oldCell.column_id,
                 value := some (get_smartsheet_cell_value (rowGet sourceRow title)
                    ((alLookup (columnsType sheet) oldCell.column_id).getD "")) }
        else Option.none
      | Option.none => Option.none) }

/-- One insert action (writer.py 270-291): for each remote column whose title
is also an input column, emit the coerced input value; on the reference column
itself the value is the row's index label (`source_row.name`). -/
def buildNewRow (cfg : Config) (sheet : SSheet) (input : InputTable) (ref : PyVal) : SRow :=
  let sourceRow := inputLoc cfg input ref
  { id := 0,
    cells := (outputColumns sheet).filterMap (fun p =>
      if p.1 ∈ inputColumns input then
        some { column_id := p.2,
               value := some (get_smartsheet_cell_value
                  (if p.1 ≠ cfg.referenceColumn then rowGet sourceRow p.1
                   else indexLabel cfg sourceRow)
                  ((alLookup (columnsType sheet) p.2).getD "")) }
      else Option.none) }

/-- The clear-first row id batches (writer.py 171-176):
`[row_ids[i:i+300] for i in range(0, len(row_ids), 300)]`. -/
def deleteChunks (rowIds : List Nat) : List (List Nat) :=
  (List.range ((rowIds.length + 300 - 1) / 300)).map (fun i => (rowIds.drop (i * 300)).take 300)

/-- The deletions issued by the clear-first branch (writer.py 169-176). -/
def clearOps (cfg : Config) (sheet : SSheet) : List RemoteOp :=
  if cfg.clearFirst then (deleteChunks (sheet.rows.map (fun r => r.id))).map RemoteOp.deleteRows
  else []

/-- The sheet snapshot after the clear-first branch (writer.py 177 re-fetches
the sheet; all rows were just deleted). -/
def clearedSheet (cfg : Config) (sheet : SSheet) : SSheet :=
  if cfg.clearFirst then { sheet with rows := [] } else sheet

/-- The update and insert batches (writer.py 239-295), given the reference
column id: one `update_rows` call when any matched row exists, then, when
`addMissingRefs` is set, one `add_rows` call when any missing reference exists. -/
def mainOps (cfg : Config) (sheet1 : SSheet) (input : InputTable) (refId : Nat) : List RemoteOp :=
  let refs := inputRefs cfg input
  let st := buildPlan refId refs sheet1.rows
  let missing := missingOf refs st
  let updated := st.output_ref_to_be_synced.map (fun p =>
      buildUpdatedRow cfg sheet1 input p.1 p.2
        ((alLookup st.output_data_to_be_synced p.2).getD ⟨0, []⟩))
  let newRows := missing.map (fun ref => buildNewRow cfg sheet1 input ref)
  (if updated.length > 0 then [RemoteOp.updateRows updated] else []) ++
    (if cfg.addMissingRefs then
       (if newRows.length > 0 then [RemoteOp.addRows newRows] else [])
     else [])

/-- The remote mutations issued by `SmartsheetWriterNode.execute`
(writer.py 143-297) on a sheet snapshot, in order, paired with the
`InvalidParametersError` message (if any) the call raises.  Mutations already
issued when the error is raised remain in the trace. -/
def executeTrace (cfg : Config) (sheet : SSheet) (input : InputTable) :
    List RemoteOp × Option String :=
  let sheet1 := clearedSheet cfg sheet
  let ops0 := clearOps cfg sheet
  if cfg.referenceColumn ∈ inputColumns input then
    match refColumnIdOf cfg sheet1 with
    | some refId => (ops0 ++ mainOps cfg sheet1 input refId, Option.none)
    | Option.none => (ops0, some "Reference column not found in output columns")
  else (ops0, some "Reference column not found in input columns")

/-- Helper for Python `s.split(":")`: the accumulator holds the current
segment reversed. -/
def splitColonAux : List Char → List Char → List String
  | [], acc => [String.mk acc.reverse]
  | c :: r, acc =>
    if c = ':' then String.mk acc.reverse :: splitColonAux r [] else splitColonAux r (c :: acc)

/-- Python `s.split(":")`: split on every colon, keeping empty segments. -/
def pySplitColon (s : String) : List String := splitColonAux s.toList []

/-- `token_parts = access_token.split(":"); if len(token_parts) == 2:
region, token = token_parts` (writer.py 149-151 and reader.py 105-107):
the combined credential form, applied to `(access_region, access_token)`. -/
def credentialSplit (access_token : String) (access_region : String) : String × String :=
  match pySplitColon access_token with
  | [region, token] => (region, token)
  | _ => (access_region, access_token)

/-- Canonical representative of a scalar under Python `==`: its numeric value,
or the string itself. -/
def pvRep : PValue → ℚ ⊕ String
  | .bool b => Sum.inl (if b then 1 else 0)
  | .int n => Sum.inl (n : ℚ)
  | .float q => Sum.inl q
  | .str s => Sum.inr s

/-- Canonical representative of a possibly-null value. -/
def pyRep : PyVal → Option (ℚ ⊕ String)
  | Option.none => Option.none
  | some a => some (pvRep a)

/-- The keys of a value-keyed dict. -/
def keysOf (d : List (PyVal × Nat)) : List PyVal := d.map (fun p => p.1)

/-- A row's scan matches `k` when some non-null reference-column cell of it
compares `==` to `k`. -/
def rowMatches (refId : Nat) (k : PyVal) (r : SRow) : Bool :=
  (r.cells.filter (fun c => c.value.isSome)).any
    (fun c => decide (c.column_id = refId) && pyEq c.value k)

/-- The row-deletion batches of a trace, in order. -/
def deletesOf (ops : List RemoteOp) : List (List Nat) :=
  ops.filterMap (fun op =>
    match op with
    | RemoteOp.deleteRows ids => some ids
    | _ => Option.none)

/-! ### Lemmas: Python equality is an equivalence (on NaN-free values) -/

theorem pvEq_iff_rep {a b : PValue} : pvEq a b = true ↔ pvRep a = pvRep b := by
  have hb : ∀ x y : Bool, ((if x then (1 : ℚ) else 0) = (if y then (1 : ℚ) else 0)) ↔ x = y := by
    intro x y
    cases x <;> cases y <;> norm_num
  cases a <;> cases b <;>
    simp [pvEq, pvRep, hb] <;>
    constructor <;> intro h <;> exact_mod_cast h

theorem pyEq_iff_rep {a b : PyVal} : pyEq a b = true ↔ pyRep a = pyRep b := by
  cases a <;> cases b <;> simp [pyEq, pyRep, pvEq_iff_rep]

theorem pyEq_refl (a : PyVal) : pyEq a a = true := pyEq_iff_rep.mpr rfl

theorem pyEq_symm {a b : PyVal} (h : pyEq a b = true) : pyEq b a = true :=
  pyEq_iff_rep.mpr (pyEq_iff_rep.mp h).symm

theorem pyEq_trans {a b c : PyVal} (h1 : pyEq a b = true) (h2 : pyEq b c = true) :
    pyEq a c = true :=
  pyEq_iff_rep.mpr ((pyEq_iff_rep.mp h1).trans (pyEq_iff_rep.mp h2))

theorem bool_ext {a b : Bool} (h : a = true ↔ b = true) : a = b := by
  cases a <;> cases b <;> simp_all

theorem pyMem_iff {x : PyVal} {l : List PyVal} :
    pyMem x l = true ↔ ∃ y ∈ l, pyEq y x = true := by
  simp [pyMem]

theorem pyMem_congr {x y : PyVal} (h : pyEq x y = true) (l : List PyVal) :
    pyMem x l = pyMem y l := by
  apply bool_ext
  simp only [pyMem_iff]
  constructor
  · rintro ⟨z, hz, hzx⟩
    exact ⟨z, hz, pyEq_trans hzx h⟩
  · rintro ⟨z, hz, hzy⟩
    exact ⟨z, hz, pyEq_trans hzy (pyEq_symm h)⟩

/-! ### Lemmas: dict models -/

theorem pyDictContains_eq_mem_keys (d : List (PyVal × Nat)) (k : PyVal) :
    pyDictContains d k = pyMem k (keysOf d) := by
  apply bool_ext
  simp [pyDictContains, pyMem, keysOf]

theorem keysOf_insert (d : List (PyVal × Nat)) (k : PyVal) (v : Nat) (x : PyVal) :
    pyMem x (keysOf (pyDictInsert d k v)) = (pyMem x (keysOf d) || pyEq k x) := by
  apply bool_ext
  rw [pyDictInsert]
  by_cases hc : d.any (fun p => pyEq p.1 k) = true
  · rw [if_pos hc]
    have hkeys : keysOf (d.map (fun p => if pyEq p.1 k then (p.1, v) else p)) = keysOf d := by
      simp only [keysOf, List.map_map]
      apply List.map_congr_left
      intro p _
      by_cases h : pyEq p.1 k = true <;> simp [h]
    rw [hkeys]
    simp only [List.any_eq_true] at hc
    obtain ⟨p, hp, hpk⟩ := hc
    simp only [Bool.or_eq_true, pyMem_iff]
    constructor
    · intro h
      exact Or.inl h
    · rintro (h | h)
      · exact h
      · exact ⟨p.1, by simp [keysOf]; exact ⟨p.2, hp⟩, pyEq_trans hpk h⟩
  · rw [if_neg hc]
    simp only [keysOf, List.map_append, List.map_cons, List.map_nil, Bool.or_eq_true, pyMem_iff]
    constructor
    · rintro ⟨y, hy, hyx⟩
      rcases List.mem_append.mp hy with h | h
      · exact Or.inl ⟨y, h, hyx⟩
      · simp at h
        subst h
        exact Or.inr hyx
    · rintro (⟨y, hy, hyx⟩ | h)
      · exact ⟨y, List.mem_append.mpr (Or.inl hy), hyx⟩
      · exact ⟨k, List.mem_append.mpr (Or.inr (by simp)), h⟩

theorem pyEq_false_left {p e k : PyVal} (hpe : pyEq p e = false) (h : pyEq e k = true) :
    pyEq p k = false := by
  cases hval : pyEq p k with
  | false => rfl
  | true => exact absurd (pyEq_trans hval (pyEq_symm h)) (by simp [hpe])

theorem pyDictLookup_mapUpdate {d : List (PyVal × Nat)} {k e : PyVal} {v : Nat}
    (h : pyEq e k = true) (hc : ∃ p ∈ d, pyEq p.1 e = true) :
    pyDictLookup (d.map (fun p => if pyEq p.1 e then (p.1, v) else p)) k = some v := by
  induction d with
  | nil => simp at hc
  | cons p t ih =>
    by_cases hpe : pyEq p.1 e = true
    · have hpk : pyEq p.1 k = true := pyEq_trans hpe h
      simp only [List.map_cons, hpe, if_true, pyDictLookup]
      rw [List.find?_cons_of_pos _ (by simpa using hpk)]
      simp
    · have hpe' : pyEq p.1 e = false := by simpa using hpe
      have hpk : pyEq p.1 k = false := pyEq_false_left hpe' h
      obtain ⟨q, hq, hqe⟩ := hc
      rcases List.mem_cons.mp hq with rfl | hqt
      · exact absurd hqe (by simp [hpe'])
      · simp only [List.map_cons, hpe', if_false, pyDictLookup]
        rw [List.find?_cons_of_neg _ (by simpa using hpk)]
        exact ih ⟨q, hqt, hqe⟩

theorem pyDictLookup_appendNew {d : List (PyVal × Nat)} {k e : PyVal} {v : Nat}
    (h : pyEq e k = true) (hc : ∀ p ∈ d, pyEq p.1 e = false) :
    pyDictLookup (d ++ [(e, v)]) k = some v := by
  induction d with
  | nil =>
    simp only [List.nil_append, pyDictLookup]
    rw [List.find?_cons_of_pos _ (by simpa using h)]
    simp
  | cons p t ih =>
    have hpe : pyEq p.1 e = false := hc p (List.mem_cons_self _ _)
    have hpk : pyEq p.1 k = false := pyEq_false_left hpe h
    simp only [List.cons_append, pyDictLookup]
    rw [List.find?_cons_of_neg _ (by simpa using hpk)]
    exact ih (fun q hq => hc q (List.mem_cons_of_mem _ hq))

/-- Inserting a binding for a key `==`-equal to `k` makes `d[k]` that value. -/
theorem pyDictLookup_insert_eqv {d : List (PyVal × Nat)} {k e : PyVal} {v : Nat}
    (h : pyEq e k = true) : pyDictLookup (pyDictInsert d e v) k = some v := by
  rw [pyDictInsert]
  by_cases hc : d.any (fun p => pyEq p.1 e) = true
  · rw [if_pos hc]
    exact pyDictLookup_mapUpdate h (by simpa using hc)
  · rw [if_neg hc]
    refine pyDictLookup_appendNew h ?_
    intro p hp
    by_contra hne
    exact hc (List.any_eq_true.mpr ⟨p, hp, by simpa using hne⟩)

/-- Inserting a binding for a key not `==`-equal to `k` leaves `d[k]` unchanged. -/
theorem pyDictLookup_insert_ne {d : List (PyVal × Nat)} {k e : PyVal} {v : Nat}
    (h : pyEq e k = false) : pyDictLookup (pyDictInsert d e v) k = pyDictLookup d k := by
  rw [pyDictInsert]
  by_cases hc : d.any (fun p => pyEq p.1 e) = true
  · rw [if_pos hc]
    clear hc
    induction d with
    | nil => simp
    | cons p t ih =>
      by_cases hpe : pyEq p.1 e = true
      · have hpk : pyEq p.1 k = false := by
          cases hval : pyEq p.1 k with
          | false => rfl
          | true => exact absurd (pyEq_trans (pyEq_symm hpe) hval) (by simp [h])
        simp only [List.map_cons, hpe, if_true, pyDictLookup]
        rw [List.find?_cons_of_neg _ (by simpa using hpk),
          List.find?_cons_of_neg _ (by simpa using hpk)]
        exact ih
      · simp only [List.map_cons, if_neg hpe, pyDictLookup]
        by_cases hpk : pyEq p.1 k = true
        · rw [List.find?_cons_of_pos _ (by simpa using hpk),
            List.find?_cons_of_pos _ (by simpa using hpk)]
        · rw [List.find?_cons_of_neg _ (by simpa using hpk),
            List.find?_cons_of_neg _ (by simpa using hpk)]
          exact ih
  · rw [if_neg hc]
    clear hc
    induction d with
    | nil =>
      simp only [List.nil_append, pyDictLookup]
      rw [List.find?_cons_of_neg _ (by simpa using h)]
    | cons p t ih =>
      simp only [List.cons_append, pyDictLookup]
      by_cases hpk : pyEq p.1 k = true
      · rw [List.find?_cons_of_pos _ (by simpa using hpk),
          List.find?_cons_of_pos _ (by simpa using hpk)]
      · rw [List.find?_cons_of_neg _ (by simpa using hpk),
          List.find?_cons_of_neg _ (by simpa using hpk)]
        exact ih

theorem pyDictContains_eq_isSome (d : List (PyVal × Nat)) (k : PyVal) :
    pyDictContains d k = (pyDictLookup d k).isSome := by
  apply bool_ext
  simp [pyDictContains, pyDictLookup, List.any_eq_true, List.find?_isSome]

theorem alInsert_of_not_mem {α β : Type} [DecidableEq α] {d : List (α × β)} {k : α} (v : β)
    (h : k ∉ d.map Prod.fst) : alInsert d k v = d ++ [(k, v)] := by
  rw [alInsert, if_neg]
  simp only [List.any_eq_true, decide_eq_true_eq, not_exists]
  intro p hp
  exact h (List.mem_map.mpr ⟨p, hp.1, hp.2⟩)

theorem buildDict_go {α β : Type} [DecidableEq α] (l : List (α × β)) :
    ∀ acc : List (α × β), (l.map Prod.fst).Nodup →
      (∀ k ∈ l.map Prod.fst, k ∉ acc.map Prod.fst) →
      l.foldl (fun d p => alInsert d p.1 p.2) acc = acc ++ l := by
  induction l with
  | nil =>
    intro acc _ _
    simp
  | cons p t ih =>
    intro acc h1 h2
    rw [List.map_cons] at h1
    have hp1 : p.1 ∉ t.map Prod.fst := (List.nodup_cons.mp h1).1
    have h1t : (t.map Prod.fst).Nodup := (List.nodup_cons.mp h1).2
    simp only [List.foldl_cons]
    rw [alInsert_of_not_mem p.2 (h2 p.1 (by simp))]
    have hdisj : ∀ k ∈ t.map Prod.fst, k ∉ (acc ++ [(p.1, p.2)]).map Prod.fst := by
      intro k hk
      simp only [List.map_append, List.map_cons, List.map_nil, List.mem_append,
        List.mem_singleton, not_or]
      refine ⟨h2 k (by simp [hk]), ?_⟩
      intro hkp
      exact hp1 (hkp ▸ hk)
    rw [ih (acc ++ [(p.1, p.2)]) h1t hdisj]
    simp

theorem buildDict_eq_self {α β : Type} [DecidableEq α] (l : List (α × β))
    (h : (l.map Prod.fst).Nodup) : buildDict l = l := by
  have := buildDict_go l [] h (by simp)
  simpa [buildDict] using this

theorem alLookup_isSome_iff {α β : Type} [DecidableEq α] {l : List (α × β)} {k : α} :
    (alLookup l k).isSome = true ↔ k ∈ l.map Prod.fst := by
  induction l with
  | nil => simp [alLookup]
  | cons p t ih =>
    by_cases hpk : p.1 = k
    · rw [alLookup, List.find?_cons_of_pos _ (by simpa using hpk)]
      simp [hpk]
    · rw [alLookup, List.find?_cons_of_neg _ (by simpa using hpk)]
      show (alLookup t k).isSome = true ↔ _
      rw [ih]
      simp only [List.map_cons, List.mem_cons]
      constructor
      · intro hk
        exact Or.inr hk
      · rintro (rfl | hk)
        · exact absurd rfl hpk
        · exact hk

theorem alLookup_eq_some_of_mem {α β : Type} [DecidableEq α] {l : List (α × β)} {k : α} {v : β}
    (h : (l.map Prod.fst).Nodup) (hm : (k, v) ∈ l) : alLookup l k = some v := by
  induction l with
  | nil => simp at hm
  | cons p t ih =>
    rw [List.map_cons] at h
    have hp1 : p.1 ∉ t.map Prod.fst := (List.nodup_cons.mp h).1
    have ht : (t.map Prod.fst).Nodup := (List.nodup_cons.mp h).2
    rcases List.mem_cons.mp hm with rfl | hmt
    · rw [alLookup, List.find?_cons_of_pos _ (by simp)]
      rfl
    · have hne : p.1 ≠ k := by
        intro he
        exact hp1 (he ▸ List.mem_map.mpr ⟨(k, v), hmt, rfl⟩)
      rw [alLookup, List.find?_cons_of_neg _ (by simpa using hne)]
      exact ih ht hmt

theorem mem_of_alLookup_eq_some {α β : Type} [DecidableEq α] {l : List (α × β)} {k : α} {v : β}
    (h : alLookup l k = some v) : (k, v) ∈ l := by
  induction l with
  | nil => simp [alLookup] at h
  | cons p t ih =>
    by_cases hpk : p.1 = k
    · rw [alLookup, List.find?_cons_of_pos _ (by simpa using hpk)] at h
      simp only [Option.map_some', Option.some.injEq] at h
      exact List.mem_cons.mpr (Or.inl (by rw [← hpk, ← h]))
    · rw [alLookup, List.find?_cons_of_neg _ (by simpa using hpk)] at h
      exact List.mem_cons_of_mem _ (ih h)

/-! ### Lemmas: the remote-row scan -/

theorem pyMem_append (x : PyVal) (a b : List PyVal) :
    pyMem x (a ++ b) = (pyMem x a || pyMem x b) := by
  simp [pyMem, List.any_append]

theorem foldCells_no_match (refId : Nat) (refs : List PyVal) (row : SRow) :
    ∀ (cs : List SCell) (st : PlanState),
      (cs.foldl (processCell refId refs row) st).output_ref_no_match =
        st.output_ref_no_match ++
          ((cs.filter (fun c => c.column_id = refId)).map (fun c => c.value)).filter
            (fun v => !(pyMem v refs)) := by
  intro cs
  induction cs with
  | nil =>
    intro st
    simp
  | cons c t ih =>
    intro st
    rw [List.foldl_cons, ih]
    by_cases hcol : c.column_id = refId
    · by_cases hmem : pyMem c.value refs = true
      · have hcell : (processCell refId refs row st c).output_ref_no_match =
            st.output_ref_no_match := by
          rw [processCell, if_pos hcol, if_pos hmem]
        rw [hcell]
        congr 1
        simp [hcol, hmem]
      · have hmem' : pyMem c.value refs = false := by simpa using hmem
        have hcell : (processCell refId refs row st c).output_ref_no_match =
            st.output_ref_no_match ++ [c.value] := by
          rw [processCell, if_pos hcol, if_neg (by simp [hmem'])]
        rw [hcell]
        simp [hcol, hmem', List.append_assoc]
    · have hcell : processCell refId refs row st c = st := by
        rw [processCell, if_neg hcol]
      rw [hcell]
      congr 1
      simp [hcol]

theorem processRow_no_match (refId : Nat) (refs : List PyVal) (st : PlanState) (row : SRow) :
    (processRow refId refs st row).output_ref_no_match =
      st.output_ref_no_match ++ (rowRefValues refId row).filter (fun v => !(pyMem v refs)) := by
  rw [processRow, foldCells_no_match, rowRefValues]

theorem foldRows_no_match (refId : Nat) (refs : List PyVal) :
    ∀ (rows : List SRow) (st : PlanState),
      (rows.foldl (processRow refId refs) st).output_ref_no_match =
        st.output_ref_no_match ++ (remoteRefValues refId rows).filter (fun v => !(pyMem v refs)) := by
  intro rows
  induction rows with
  | nil =>
    intro st
    simp [remoteRefValues]
  | cons r t ih =>
    intro st
    rw [List.foldl_cons, ih, processRow_no_match]
    have : remoteRefValues refId (r :: t) = rowRefValues refId r ++ remoteRefValues refId t := by
      simp [remoteRefValues]
    rw [this, List.filter_append, List.append_assoc]

/-- `output_ref_no_match` is exactly the stream of non-null reference-column
cell values that are not input references, in scan order. -/
theorem buildPlan_no_match (refId : Nat) (refs : List PyVal) (rows : List SRow) :
    (buildPlan refId refs rows).output_ref_no_match =
      (remoteRefValues refId rows).filter (fun v => !(pyMem v refs)) := by
  rw [buildPlan, foldRows_no_match]
  rfl

theorem processCell_sync_keys {refId : Nat} {refs : List PyVal} {row : SRow} {st : PlanState}
    {c : SCell}
    (h : ∀ x, pyMem x (keysOf st.output_ref_to_be_synced) = true → pyMem x refs = true) :
    ∀ x, pyMem x (keysOf (processCell refId refs row st c).output_ref_to_be_synced) = true →
      pyMem x refs = true := by
  intro x hx
  rw [processCell] at hx
  split_ifs at hx with h1 h2
  · rw [keysOf_insert] at hx
    rcases Bool.or_eq_true_iff.mp hx with hk | he
    · exact h x hk
    · rw [← pyMem_congr (pyEq_symm he) refs] at h2
      exact h2
  · exact h x hx
  · exact h x hx

theorem foldCells_sync_keys {refId : Nat} {refs : List PyVal} {row : SRow} :
    ∀ (cs : List SCell) (st : PlanState),
      (∀ x, pyMem x (keysOf st.output_ref_to_be_synced) = true → pyMem x refs = true) →
      ∀ x, pyMem x (keysOf ((cs.foldl (processCell refId refs row) st).output_ref_to_be_synced)) = true →
        pyMem x refs = true := by
  intro cs
  induction cs with
  | nil =>
    intro st h
    exact h
  | cons c t ih =>
    intro st h
    rw [List.foldl_cons]
    exact ih _ (processCell_sync_keys h)

theorem buildPlan_sync_keys {refId : Nat} {refs : List PyVal} {rows : List SRow} :
    ∀ x, pyMem x (planKeys (buildPlan refId refs rows)) = true → pyMem x refs = true := by
  rw [buildPlan]
  have main : ∀ (rs : List SRow) (st : PlanState),
      (∀ x, pyMem x (keysOf st.output_ref_to_be_synced) = true → pyMem x refs = true) →
      ∀ x, pyMem x (keysOf ((rs.foldl (processRow refId refs) st).output_ref_to_be_synced)) = true →
        pyMem x refs = true := by
    intro rs
    induction rs with
    | nil =>
      intro st h
      exact h
    | cons r t ih =>
      intro st h
      rw [List.foldl_cons]
      exact ih _ (foldCells_sync_keys _ _ h)
  exact main rows ⟨[], [], []⟩ (by intro x hx; simp [keysOf, pyMem] at hx)

theorem processCell_lookup {refId : Nat} {refs : List PyVal} {row : SRow} {st : PlanState}
    {c : SCell} {k : PyVal} (hk : pyMem k refs = true) :
    pyDictLookup (processCell refId refs row st c).output_ref_to_be_synced k =
      if decide (c.column_id = refId) && pyEq c.value k then some row.id
      else pyDictLookup st.output_ref_to_be_synced k := by
  rw [processCell]
  by_cases h1 : c.column_id = refId
  · by_cases he : pyEq c.value k = true
    · have hmem : pyMem c.value refs = true := by
        rw [pyMem_congr he refs]
        exact hk
      rw [if_pos h1, if_pos hmem, if_pos (by simp [h1, he])]
      exact pyDictLookup_insert_eqv he
    · have he' : pyEq c.value k = false := by simpa using he
      rw [if_pos h1]
      by_cases hmem : pyMem c.value refs = true
      · rw [if_pos hmem]
        simp only [he', Bool.and_false, if_false]
        exact pyDictLookup_insert_ne he'
      · rw [if_neg hmem]
        simp [he']
  · rw [if_neg h1]
    simp [h1]

theorem foldCells_lookup {refId : Nat} {refs : List PyVal} {row : SRow} {k : PyVal}
    (hk : pyMem k refs = true) :
    ∀ (cs : List SCell) (st : PlanState),
      pyDictLookup ((cs.foldl (processCell refId refs row) st).output_ref_to_be_synced) k =
        if cs.any (fun c => decide (c.column_id = refId) && pyEq c.value k) then some row.id
        else pyDictLookup st.output_ref_to_be_synced k := by
  intro cs
  induction cs with
  | nil =>
    intro st
    simp
  | cons c t ih =>
    intro st
    rw [List.foldl_cons, ih (processCell refId refs row st c), processCell_lookup hk]
    simp only [List.any_cons]
    by_cases ht : t.any (fun c => decide (c.column_id = refId) && pyEq c.value k) = true
    · simp [ht]
    · simp only [Bool.not_eq_true] at ht
      simp [ht]

theorem processRow_lookup {refId : Nat} {refs : List PyVal} {k : PyVal}
    (hk : pyMem k refs = true) (st : PlanState) (r : SRow) :
    pyDictLookup ((processRow refId refs st r).output_ref_to_be_synced) k =
      if rowMatches refId k r then some r.id
      else pyDictLookup st.output_ref_to_be_synced k := by
  rw [processRow, foldCells_lookup hk, rowMatches]

theorem foldRows_lookup {refId : Nat} {refs : List PyVal} {k : PyVal}
    (hk : pyMem k refs = true) :
    ∀ (rows : List SRow) (st : PlanState),
      pyDictLookup ((rows.foldl (processRow refId refs) st).output_ref_to_be_synced) k =
        match (rows.filter (rowMatches refId k)).getLast? with
        | some r => some r.id
        | Option.none => pyDictLookup st.output_ref_to_be_synced k := by
  intro rows
  induction rows with
  | nil =>
    intro st
    simp
  | cons r t ih =>
    intro st
    rw [List.foldl_cons, ih, processRow_lookup hk]
    by_cases hm : rowMatches refId k r = true
    · rw [List.filter_cons_of_pos (by simpa using hm)]
      cases hl : t.filter (rowMatches refId k) with
      | nil => simp [hl, hm]
      | cons a l =>
        rw [List.getLast?_cons_cons]
        cases hg : (a :: l).getLast? with
        | none =>
          have h2 : (a :: l).getLast?.isSome := by
            rw [List.getLast?_isSome]
            simp
          rw [hg] at h2
          simp at h2
        | some r' => rfl
    · have hm' : rowMatches refId k r = false := by simpa using hm
      rw [List.filter_cons_of_neg (by simp [hm'])]
      cases hft : (t.filter (rowMatches refId k)).getLast? with
      | some r' => simp [hft]
      | none => simp [hft, hm']

/-- Last write wins: for an input reference `k`, `output_ref_to_be_synced[k]`
is the id of the last sheet row carrying a non-null reference cell `==` to `k`. -/
theorem buildPlan_lookup {refId : Nat} {refs : List PyVal} {rows : List SRow} {k : PyVal}
    (hk : pyMem k refs = true) :
    pyDictLookup ((buildPlan refId refs rows).output_ref_to_be_synced) k =
      ((rows.filter (rowMatches refId k)).getLast?).map (fun r => r.id) := by
  rw [buildPlan, foldRows_lookup hk]
  cases h : (rows.filter (rowMatches refId k)).getLast? <;> simp [h, pyDictLookup]

theorem foldl_of_id {α β : Type} (f : β → α → β) (cs : List α) (st : β)
    (h : ∀ c ∈ cs, ∀ s, f s c = s) : cs.foldl f st = st := by
  induction cs generalizing st with
  | nil => simp
  | cons c t ih =>
    rw [List.foldl_cons, h c (List.mem_cons_self _ _) st]
    exact ih st (fun c hc => h c (List.mem_cons_of_mem _ hc))

/-- A row whose reference-column cells are all null is invisible to the scan. -/
theorem processRow_invisible {refId : Nat} {refs : List PyVal} {st : PlanState} {r : SRow}
    (h : ∀ c ∈ r.cells, c.column_id = refId → c.value = Option.none) :
    processRow refId refs st r = st := by
  rw [processRow]
  apply foldl_of_id
  intro c hc s
  have hcs := List.mem_filter.mp hc
  rw [processCell]
  by_cases hcol : c.column_id = refId
  · exfalso
    have hv := h c hcs.1 hcol
    have hs : c.value.isSome = true := hcs.2
    rw [hv] at hs
    simp at hs
  · rw [if_neg hcol]

theorem buildPlan_invisible {refId : Nat} {refs : List PyVal} (pre suf : List SRow) (r : SRow)
    (h : ∀ c ∈ r.cells, c.column_id = refId → c.value = Option.none) :
    buildPlan refId refs (pre ++ r :: suf) = buildPlan refId refs (pre ++ suf) := by
  rw [buildPlan, buildPlan, List.foldl_append, List.foldl_append, List.foldl_cons,
    processRow_invisible h]

theorem planKeys_eq (st : PlanState) : planKeys st = keysOf st.output_ref_to_be_synced := rfl

theorem executeTrace_eq (cfg : Config) (sheet : SSheet) (input : InputTable) :
    executeTrace cfg sheet input =
      if cfg.referenceColumn ∈ inputColumns input then
        match refColumnIdOf cfg (clearedSheet cfg sheet) with
        | some refId =>
          (clearOps cfg sheet ++ mainOps cfg (clearedSheet cfg sheet) input refId, Option.none)
        | Option.none => (clearOps cfg sheet, some "Reference column not found in output columns")
      else (clearOps cfg sheet, some "Reference column not found in input columns") := rfl

theorem refColumnIdOf_cleared (cfg : Config) (sheet : SSheet) :
    refColumnIdOf cfg (clearedSheet cfg sheet) = refColumnIdOf cfg sheet := by
  rw [clearedSheet]
  split <;> rfl

/-! ### Claim theorems -/

/-- C4 counterexample: the coercion does not match the spec's reference
definition.  The string `"3.5"` converts to a float (so the spec's definition
emits the float 3.5), but its integer cast raises, so the code returns the
string `"3.5"` unchanged. -/
theorem c4_coercion_counterexample :
    get_smartsheet_cell_value (some (.str "3.5")) "TEXT_NUMBER" = .str "3.5" ∧
    coerce_specification (some (.str "3.5")) "TEXT_NUMBER" = .float (7/2) ∧
    get_smartsheet_cell_value (some (.str "3.5")) "TEXT_NUMBER" ≠
      coerce_specification (some (.str "3.5")) "TEXT_NUMBER" := by
  have hint : pyInt (.str "3.5") = Option.none := by decide
  have hm : parseMantissa ['3', '.', '5'] = some (7/2 : ℚ) := by
    have h3 : takeDigits ['3', '.', '5'] = (['3'], ['.', '5']) := by decide
    have h4 : takeDigits ['5'] = (['5'], []) := by decide
    rw [parseMantissa, h3]
    simp [h4, digitsVal]
    norm_num
  have hfl : pyFloat (.str "3.5") = some (7/2 : ℚ) := by
    show parseFloatStr "3.5" = some (7/2 : ℚ)
    have h1 : parseSign "3.5".toList = (false, ['3', '.', '5']) := by decide
    have h2 : splitOnExp ['3', '.', '5'] = (['3', '.', '5'], Option.none) := by decide
    rw [parseFloatStr, h1]
    simp [h2, hm]
  refine ⟨?_, ?_, ?_⟩
  · rw [get_smartsheet_cell_value]
    simp [hint, hfl, pyStr]
  · rw [coerce_specification]
    simp [hint, hfl]
  · rw [get_smartsheet_cell_value, coerce_specification]
    simp [hint, hfl, pyStr]

/-- C4 amended: the coercion equals the amended reference definition — int
when both numeric casts succeed and agree, float when both succeed and
disagree, the string representation when either cast fails; null still maps
to `""` before the CHECKBOX test, and CHECKBOX takes truthiness. -/
theorem c4_coercion_matches_amended_spec :
    ∀ (v : PyVal) (t : String), get_smartsheet_cell_value v t = coerce_amended v t := by
  intro v t
  cases v with
  | none => rfl
  | some pv =>
    rw [get_smartsheet_cell_value, coerce_amended]
    by_cases ht : t = "CHECKBOX"
    · simp [ht]
    · simp only [if_neg ht]
      by_cases hb : (pyInt pv).isSome = true ∧ (pyFloat pv).isSome = true
      · obtain ⟨n, hn⟩ := Option.isSome_iff_exists.mp hb.1
        obtain ⟨q, hq⟩ := Option.isSome_iff_exists.mp hb.2
        rw [dif_pos hb]
        simp [hn, hq]
      · rw [dif_neg hb]
        cases hi : pyInt pv with
        | none => cases hf : pyFloat pv <;> simp [hi, hf]
        | some n =>
          cases hf : pyFloat pv with
          | none => simp [hi, hf]
          | some q => exact absurd ⟨by simp [hi], by simp [hf]⟩ hb

/-- C7: the coercion is total by construction (the fallible casts are
`Option`-valued and every branch returns a value), and whenever either numeric
cast fails on a non-null value with a non-CHECKBOX destination, it degrades to
the string representation rather than propagating the failure. -/
theorem c7_coercion_failure_free (pv : PValue) (t : String) (ht : t ≠ "CHECKBOX")
    (hfail : pyInt pv = Option.none ∨ pyFloat pv = Option.none) :
    get_smartsheet_cell_value (some pv) t = .str (pyStr pv) := by
  rw [get_smartsheet_cell_value]
  simp only [if_neg ht]
  rcases hfail with h | h
  · cases hf : pyFloat pv <;> simp [h, hf]
  · cases hi : pyInt pv <;> simp [hi, h]

theorem c7_coercion_failure_free_witness :
    ("TEXT_NUMBER" : String) ≠ "CHECKBOX" ∧
    (pyInt (.str "abc") = Option.none ∨ pyFloat (.str "abc") = Option.none) ∧
    get_smartsheet_cell_value (some (.str "abc")) "TEXT_NUMBER" = .str (pyStr (.str "abc")) :=
  ⟨by decide, Or.inl (by decide),
    c7_coercion_failure_free (.str "abc") "TEXT_NUMBER" (by decide) (Or.inl (by decide))⟩

/-- C9 counterexample: the credential string is split with `split(":")` and
unpacked only when there are exactly two parts, so `"eu:abc:def"` is not split
on its first colon — the region stays untouched and the whole string remains
the token. -/
theorem c9_credential_split_counterexample :
    credentialSplit "eu:abc:def" "" = ("", "eu:abc:def") ∧
    credentialSplit "eu:abc:def" "" ≠ ("eu", "abc:def") := by decide

/-- C9 amended: only a credential string with exactly one colon is split —
region before the colon, token after it; a string splitting into any other
number of parts leaves region and token unchanged. -/
theorem c9_credential_split_amended (s region : String) :
    (∀ a b, pySplitColon s = [a, b] → credentialSplit s region = (a, b)) ∧
    ((pySplitColon s).length ≠ 2 → credentialSplit s region = (region, s)) := by
  constructor
  · intro a b h
    rw [credentialSplit, h]
  · intro h
    rw [credentialSplit]
    cases hs : pySplitColon s with
    | nil => rfl
    | cons a t =>
      cases t with
      | nil => rfl
      | cons b t2 =>
        cases t2 with
        | nil =>
          exfalso
          apply h
          rw [hs]
          rfl
        | cons c t3 => rfl

theorem c9_credential_split_amended_witness :
    pySplitColon "eu:tok" = ["eu", "tok"] ∧
    credentialSplit "eu:tok" "x" = ("eu", "tok") ∧
    (pySplitColon "eu:abc:def").length ≠ 2 ∧
    credentialSplit "eu:abc:def" "x" = ("x", "eu:abc:def") :=
  ⟨by decide,
    (c9_credential_split_amended "eu:tok" "x").1 "eu" "tok" (by decide),
    by decide,
    (c9_credential_split_amended "eu:abc:def" "x").2 (by decide)⟩

/-- C10: a remote row whose reference-column cells are all absent or null is
invisible to the reconciliation scan: the plan over any sheet containing it
equals the plan with the row removed, so it is neither matched for update nor
recorded as an orphan, for every input reference list. -/
theorem c10_null_ref_rows_invisible (refId : Nat) (refs : List PyVal)
    (pre suf : List SRow) (r : SRow)
    (h : ∀ c ∈ r.cells, c.column_id = refId → c.value = Option.none) :
    buildPlan refId refs (pre ++ r :: suf) = buildPlan refId refs (pre ++ suf) :=
  buildPlan_invisible pre suf r h

theorem c10_null_ref_rows_invisible_witness :
    (∀ c ∈ (SRow.mk 5 [SCell.mk 1 Option.none, SCell.mk 2 (some (.int 7))]).cells,
      c.column_id = 1 → c.value = Option.none) ∧
    buildPlan 1 [some (.str "A")]
        ([SRow.mk 9 [SCell.mk 1 (some (.str "A"))]] ++
          SRow.mk 5 [SCell.mk 1 Option.none, SCell.mk 2 (some (.int 7))] ::
            [SRow.mk 7 [SCell.mk 1 (some (.str "C"))]]) =
      buildPlan 1 [some (.str "A")]
        ([SRow.mk 9 [SCell.mk 1 (some (.str "A"))]] ++ [SRow.mk 7 [SCell.mk 1 (some (.str "C"))]]) :=
  ⟨by decide,
    c10_null_ref_rows_invisible 1 [some (.str "A")]
      [SRow.mk 9 [SCell.mk 1 (some (.str "A"))]]
      [SRow.mk 7 [SCell.mk 1 (some (.str "C"))]]
      (SRow.mk 5 [SCell.mk 1 Option.none, SCell.mk 2 (some (.int 7))]) (by decide)⟩

/-- C1: partition completeness of the reconciliation plan.  With no duplicate
reference keys on either side (and in fact unconditionally), the matched keys
(`output_ref_to_be_synced.keys()`) together with the missing keys
(`output_ref_missing`, the insert candidates) are exactly the input references,
their intersection is empty, and the orphan keys (`output_ref_no_match`) are
exactly the remote reference values that are not input references — all as
sets under Python `==`. -/
theorem c1_partition_completeness (refId : Nat) (refs : List PyVal) (rows : List SRow)
    (_hK : refs.Pairwise (fun a b => pyEq a b = false))
    (_hR : (remoteRefValues refId rows).Pairwise (fun a b => pyEq a b = false)) :
    ∀ k : PyVal,
      pyMem k (planKeys (buildPlan refId refs rows) ++ missingOf refs (buildPlan refId refs rows))
        = pyMem k refs ∧
      ¬(pyMem k (planKeys (buildPlan refId refs rows)) = true ∧
          pyMem k (missingOf refs (buildPlan refId refs rows)) = true) ∧
      pyMem k ((buildPlan refId refs rows).output_ref_no_match)
        = (pyMem k (remoteRefValues refId rows) && !(pyMem k refs)) := by
  intro k
  refine ⟨?_, ?_, ?_⟩
  · rw [pyMem_append]
    apply bool_ext
    simp only [Bool.or_eq_true]
    constructor
    · rintro (hkeys | hmiss)
      · exact buildPlan_sync_keys k hkeys
      · obtain ⟨m, hm, hmk⟩ := pyMem_iff.mp hmiss
        obtain ⟨hmr, _⟩ := List.mem_filter.mp hm
        exact pyMem_iff.mpr ⟨m, hmr, hmk⟩
    · intro href
      obtain ⟨r, hr, hrk⟩ := pyMem_iff.mp href
      by_cases hc : pyDictContains (buildPlan refId refs rows).output_ref_to_be_synced r = true
      · left
        rw [pyDictContains_eq_mem_keys] at hc
        obtain ⟨key, hkey, hkeyr⟩ := pyMem_iff.mp hc
        refine pyMem_iff.mpr ⟨key, ?_, pyEq_trans hkeyr hrk⟩
        rw [planKeys_eq]
        exact hkey
      · right
        have hc' : pyDictContains (buildPlan refId refs rows).output_ref_to_be_synced r = false := by
          simpa using hc
        refine pyMem_iff.mpr ⟨r, ?_, hrk⟩
        rw [missingOf]
        exact List.mem_filter.mpr ⟨hr, by simp [hc']⟩
  · rintro ⟨hkeys, hmiss⟩
    obtain ⟨key, hkey, hkeyk⟩ := pyMem_iff.mp hkeys
    obtain ⟨m, hm, hmk⟩ := pyMem_iff.mp hmiss
    rw [missingOf] at hm
    obtain ⟨hmr, hnc⟩ := List.mem_filter.mp hm
    have hcm : pyDictContains (buildPlan refId refs rows).output_ref_to_be_synced m = true := by
      rw [pyDictContains_eq_mem_keys]
      refine pyMem_iff.mpr ⟨key, ?_, pyEq_trans hkeyk (pyEq_symm hmk)⟩
      rw [← planKeys_eq]
      exact hkey
    simp [hcm] at hnc
  · rw [buildPlan_no_match]
    apply bool_ext
    constructor
    · intro hnm
      obtain ⟨v, hv, hvk⟩ := pyMem_iff.mp hnm
      obtain ⟨hvr, hvm⟩ := List.mem_filter.mp hv
      have h1 : pyMem k (remoteRefValues refId rows) = true := pyMem_iff.mpr ⟨v, hvr, hvk⟩
      have h2 : pyMem k refs = false := by
        rw [← pyMem_congr hvk refs]
        simpa using hvm
      simp [h1, h2]
    · intro h
      obtain ⟨h1, h2'⟩ : pyMem k (remoteRefValues refId rows) = true ∧
          (!(pyMem k refs)) = true := by simpa using h
      have h2 : pyMem k refs = false := by simpa using h2'
      obtain ⟨v, hv, hvk⟩ := pyMem_iff.mp h1
      have hvrefs : pyMem v refs = false := by
        rw [pyMem_congr hvk refs]
        exact h2
      exact pyMem_iff.mpr ⟨v, List.mem_filter.mpr ⟨hv, by simp [hvrefs]⟩, hvk⟩

theorem c1_partition_completeness_witness :
    ([some (.str "A"), some (.str "B")] : List PyVal).Pairwise (fun a b => pyEq a b = false) ∧
    (remoteRefValues 1 [SRow.mk 10 [SCell.mk 1 (some (.str "A"))],
        SRow.mk 11 [SCell.mk 1 (some (.str "C"))]]).Pairwise (fun a b => pyEq a b = false) ∧
    (pyMem (some (.str "B"))
        (planKeys (buildPlan 1 [some (.str "A"), some (.str "B")]
            [SRow.mk 10 [SCell.mk 1 (some (.str "A"))], SRow.mk 11 [SCell.mk 1 (some (.str "C"))]]) ++
          missingOf [some (.str "A"), some (.str "B")]
            (buildPlan 1 [some (.str "A"), some (.str "B")]
              [SRow.mk 10 [SCell.mk 1 (some (.str "A"))], SRow.mk 11 [SCell.mk 1 (some (.str "C"))]]))
        = pyMem (some (.str "B")) [some (.str "A"), some (.str "B")] ∧
      ¬(pyMem (some (.str "B"))
          (planKeys (buildPlan 1 [some (.str "A"), some (.str "B")]
            [SRow.mk 10 [SCell.mk 1 (some (.str "A"))], SRow.mk 11 [SCell.mk 1 (some (.str "C"))]])) = true ∧
        pyMem (some (.str "B"))
          (missingOf [some (.str "A"), some (.str "B")]
            (buildPlan 1 [some (.str "A"), some (.str "B")]
              [SRow.mk 10 [SCell.mk 1 (some (.str "A"))], SRow.mk 11 [SCell.mk 1 (some (.str "C"))]])) = true) ∧
      pyMem (some (.str "B"))
          ((buildPlan 1 [some (.str "A"), some (.str "B")]
            [SRow.mk 10 [SCell.mk 1 (some (.str "A"))], SRow.mk 11 [SCell.mk 1 (some (.str "C"))]]).output_ref_no_match)
        = (pyMem (some (.str "B"))
            (remoteRefValues 1 [SRow.mk 10 [SCell.mk 1 (some (.str "A"))],
              SRow.mk 11 [SCell.mk 1 (some (.str "C"))]]) &&
            !(pyMem (some (.str "B")) [some (.str "A"), some (.str "B")]))) :=
  ⟨by decide, by decide,
    c1_partition_completeness 1 [some (.str "A"), some (.str "B")]
      [SRow.mk 10 [SCell.mk 1 (some (.str "A"))], SRow.mk 11 [SCell.mk 1 (some (.str "C"))]]
      (by decide) (by decide) (some (.str "B"))⟩

/-- C6: duplicate remote keys resolve last-write-wins.  For an input reference
`k`, `output_ref_to_be_synced[k]` is the id of the last sheet row with a
non-null reference cell `==` to `k` (in particular, with two or more such rows
the last one in row order wins), and the execution raises no error on account
of the duplicate: with the reference column present on both sides the error
component of the trace is `none`. -/
theorem c6_duplicate_keys_last_write_wins (cfg : Config) (sheet : SSheet) (input : InputTable)
    (refId : Nat) (k : PyVal)
    (href : refColumnIdOf cfg sheet = some refId)
    (hin : cfg.referenceColumn ∈ inputColumns input)
    (hk : pyMem k (inputRefs cfg input) = true) :
    pyDictLookup ((buildPlan refId (inputRefs cfg input) sheet.rows).output_ref_to_be_synced) k =
      ((sheet.rows.filter (rowMatches refId k)).getLast?).map (fun r => r.id) ∧
    (executeTrace cfg sheet input).2 = Option.none := by
  constructor
  · exact buildPlan_lookup hk
  · rw [executeTrace_eq, if_pos hin, refColumnIdOf_cleared, href]

theorem c6_duplicate_keys_last_write_wins_witness :
    refColumnIdOf (Config.mk "ref" false false)
        (SSheet.mk [SColumn.mk 1 "ref" "TEXT_NUMBER"]
          [SRow.mk 10 [SCell.mk 1 (some (.str "A"))], SRow.mk 11 [SCell.mk 1 (some (.str "A"))]])
      = some 1 ∧
    ("ref" ∈ inputColumns (InputTable.mk ["ref"] [[("ref", some (.str "A"))]])) ∧
    pyMem (some (.str "A"))
      (inputRefs (Config.mk "ref" false false) (InputTable.mk ["ref"] [[("ref", some (.str "A"))]])) = true ∧
    (pyDictLookup ((buildPlan 1
        (inputRefs (Config.mk "ref" false false) (InputTable.mk ["ref"] [[("ref", some (.str "A"))]]))
        (SSheet.mk [SColumn.mk 1 "ref" "TEXT_NUMBER"]
          [SRow.mk 10 [SCell.mk 1 (some (.str "A"))], SRow.mk 11 [SCell.mk 1 (some (.str "A"))]]).rows).output_ref_to_be_synced)
        (some (.str "A")) =
      (((SSheet.mk [SColumn.mk 1 "ref" "TEXT_NUMBER"]
          [SRow.mk 10 [SCell.mk 1 (some (.str "A"))], SRow.mk 11 [SCell.mk 1 (some (.str "A"))]]).rows.filter
            (rowMatches 1 (some (.str "A")))).getLast?).map (fun r => r.id) ∧
      (executeTrace (Config.mk "ref" false false)
        (SSheet.mk [SColumn.mk 1 "ref" "TEXT_NUMBER"]
          [SRow.mk 10 [SCell.mk 1 (some (.str "A"))], SRow.mk 11 [SCell.mk 1 (some (.str "A"))]])
        (InputTable.mk ["ref"] [[("ref", some (.str "A"))]])).2 = Option.none) :=
  ⟨by decide, by decide, by decide,
    c6_duplicate_keys_last_write_wins (Config.mk "ref" false false)
      (SSheet.mk [SColumn.mk 1 "ref" "TEXT_NUMBER"]
        [SRow.mk 10 [SCell.mk 1 (some (.str "A"))], SRow.mk 11 [SCell.mk 1 (some (.str "A"))]])
      (InputTable.mk ["ref"] [[("ref", some (.str "A"))]]) 1 (some (.str "A"))
      (by decide) (by decide) (by decide)⟩

/-! ### Lemmas: the execution trace -/

theorem clearedSheet_columns (cfg : Config) (sheet : SSheet) :
    (clearedSheet cfg sheet).columns = sheet.columns := by
  rw [clearedSheet]
  split <;> rfl

theorem outputColumns_cleared (cfg : Config) (sheet : SSheet) :
    outputColumns (clearedSheet cfg sheet) = outputColumns sheet := by
  rw [outputColumns, outputColumns, clearedSheet_columns]

theorem outputColumnsNameById_cleared (cfg : Config) (sheet : SSheet) :
    outputColumnsNameById (clearedSheet cfg sheet) = outputColumnsNameById sheet := by
  rw [outputColumnsNameById, outputColumnsNameById, outputColumns_cleared]

theorem columnsType_cleared (cfg : Config) (sheet : SSheet) :
    columnsType (clearedSheet cfg sheet) = columnsType sheet := by
  rw [columnsType, columnsType, clearedSheet_columns]

theorem clearOps_shape (cfg : Config) (sheet : SSheet) :
    ∀ op ∈ clearOps cfg sheet, ∃ ids, op = RemoteOp.deleteRows ids := by
  intro op hop
  rw [clearOps] at hop
  split at hop
  · obtain ⟨ids, _, hid⟩ := List.mem_map.mp hop
    exact ⟨ids, hid.symm⟩
  · simp at hop

theorem mainOps_mem (cfg : Config) (sheet1 : SSheet) (input : InputTable) (refId : Nat) :
    ∀ op ∈ mainOps cfg sheet1 input refId,
      (∃ urows, op = RemoteOp.updateRows urows ∧
        urows = ((buildPlan refId (inputRefs cfg input) sheet1.rows).output_ref_to_be_synced).map
          (fun p => buildUpdatedRow cfg sheet1 input p.1 p.2
            ((alLookup (buildPlan refId (inputRefs cfg input) sheet1.rows).output_data_to_be_synced
              p.2).getD ⟨0, []⟩))) ∨
      (∃ nrows, op = RemoteOp.addRows nrows ∧ cfg.addMissingRefs = true ∧
        nrows = (missingOf (inputRefs cfg input)
            (buildPlan refId (inputRefs cfg input) sheet1.rows)).map
          (fun ref => buildNewRow cfg sheet1 input ref)) := by
  intro op hop
  rw [mainOps] at hop
  simp only [List.mem_append] at hop
  rcases hop with h | h
  · split at h
    · left
      simp only [List.mem_singleton] at h
      exact ⟨_, h, rfl⟩
    · simp at h
  · split at h
    · split at h
      · right
        simp only [List.mem_singleton] at h
        rename_i hadd _
        exact ⟨_, h, hadd, rfl⟩
      · simp at h
    · simp at h

theorem alInsert_keys_mem {α β : Type} [DecidableEq α] (d : List (α × β)) (k : α) (v : β)
    (x : α) : x ∈ (alInsert d k v).map Prod.fst ↔ x ∈ d.map Prod.fst ∨ x = k := by
  rw [alInsert]
  split
  · rename_i hc
    have hkeys : (d.map (fun p => if p.1 = k then (p.1, v) else p)).map Prod.fst =
        d.map Prod.fst := by
      rw [List.map_map]
      apply List.map_congr_left
      intro p _
      by_cases h : p.1 = k <;> simp [h]
    rw [hkeys]
    simp only [List.any_eq_true, decide_eq_true_eq] at hc
    obtain ⟨p, hp, hpk⟩ := hc
    constructor
    · exact Or.inl
    · rintro (h | rfl)
      · exact h
      · exact hpk ▸ List.mem_map.mpr ⟨p, hp, rfl⟩
  · simp [List.mem_append, or_comm, eq_comm]

theorem buildDict_keys_mem {α β : Type} [DecidableEq α] (l : List (α × β)) (x : α) :
    x ∈ (buildDict l).map Prod.fst ↔ x ∈ l.map Prod.fst := by
  rw [buildDict]
  have main : ∀ (t : List (α × β)) (acc : List (α × β)),
      x ∈ ((t.foldl (fun d p => alInsert d p.1 p.2) acc).map Prod.fst) ↔
        x ∈ acc.map Prod.fst ∨ x ∈ t.map Prod.fst := by
    intro t
    induction t with
    | nil =>
      intro acc
      simp
    | cons p r ih =>
      intro acc
      rw [List.foldl_cons, ih, alInsert_keys_mem]
      simp only [List.map_cons, List.mem_cons]
      tauto
  rw [main l []]
  simp

theorem refColumnIdOf_isSome_iff (cfg : Config) (sheet : SSheet) :
    (refColumnIdOf cfg sheet).isSome = true ↔
      cfg.referenceColumn ∈ sheet.columns.map (fun c => c.title) := by
  rw [refColumnIdOf, alLookup_isSome_iff, outputColumns, buildDict_keys_mem, List.map_map]
  rfl

theorem refColumnIdOf_none_iff (cfg : Config) (sheet : SSheet) :
    refColumnIdOf cfg sheet = Option.none ↔
      cfg.referenceColumn ∉ sheet.columns.map (fun c => c.title) := by
  rw [← refColumnIdOf_isSome_iff]
  cases refColumnIdOf cfg sheet <;> simp

theorem chunks_flatten_aux {α : Type} :
    ∀ (c : Nat) (l : List α), l.length ≤ c * 300 →
      ((List.range c).map (fun i => (l.drop (i * 300)).take 300)).flatten = l := by
  intro c
  induction c with
  | zero =>
    intro l h
    simp only [Nat.zero_mul, Nat.le_zero, List.length_eq_zero] at h
    simp [h]
  | succ c ih =>
    intro l h
    rw [List.range_succ_eq_map]
    simp only [List.map_cons, List.map_map, List.flatten_cons, Nat.zero_mul, List.drop_zero]
    have hcomp : ((List.range c).map ((fun i => (l.drop (i * 300)).take 300) ∘ (fun i => i + 1))) =
        (List.range c).map (fun i => ((l.drop 300).drop (i * 300)).take 300) := by
      apply List.map_congr_left
      intro i _
      simp only [Function.comp]
      rw [List.drop_drop]
      congr 2
      ring
    rw [hcomp, ih (l.drop 300) (by simp only [List.length_drop]; omega)]
    exact List.take_append_drop 300 l

/-- The clear-first batches together delete exactly the sheet's row ids. -/
theorem deleteChunks_flatten (l : List Nat) : (deleteChunks l).flatten = l := by
  rw [deleteChunks]
  apply chunks_flatten_aux
  have h1 : (l.length + 300 - 1) / 300 = (l.length + 299) / 300 := by
    congr 1
  rw [h1]
  rcases Nat.eq_zero_or_pos l.length with h0 | h0
  · simp [h0]
  · by_contra hlt
    push_neg at hlt
    have h2 : ((l.length + 299) / 300 + 1) * 300 ≤ l.length + 299 := by omega
    have h3 : (l.length + 299) / 300 + 1 ≤ (l.length + 299) / 300 :=
      (Nat.le_div_iff_mul_le (by norm_num)).mpr h2
    omega

theorem deletesOf_append (a b : List RemoteOp) :
    deletesOf (a ++ b) = deletesOf a ++ deletesOf b := by
  rw [deletesOf, deletesOf, deletesOf, List.filterMap_append]

theorem deletesOf_clearOps (cfg : Config) (sheet : SSheet) :
    deletesOf (clearOps cfg sheet) =
      if cfg.clearFirst then deleteChunks (sheet.rows.map (fun r => r.id)) else [] := by
  rw [clearOps, deletesOf]
  split
  · generalize deleteChunks (sheet.rows.map (fun r => r.id)) = l
    induction l with
    | nil => rfl
    | cons a t ih =>
      simp only [List.map_cons, List.filterMap_cons] at ih ⊢
      rw [ih]
  · rfl

theorem deletesOf_mainOps (cfg : Config) (sheet1 : SSheet) (input : InputTable) (refId : Nat) :
    deletesOf (mainOps cfg sheet1 input refId) = [] := by
  rw [deletesOf, List.filterMap_eq_nil_iff]
  intro op hop
  rcases mainOps_mem cfg sheet1 input refId op hop with ⟨urows, rfl, _⟩ | ⟨nrows, rfl, _, _⟩ <;> rfl

/-- C8: orphan removal is computed but never executed.  The `removeOldRefs`
switch is hard-pinned to `false`; the only deletions in any trace are the
clear-first batches, which together delete exactly all of the sheet's row ids
(never the orphan set), and no deletion at all happens with the flag unset. -/
theorem c8_orphan_removal_never_executed (cfg : Config) (sheet : SSheet) (input : InputTable) :
    removeOldRefs = false ∧
    deletesOf (executeTrace cfg sheet input).1 =
      (if cfg.clearFirst then deleteChunks (sheet.rows.map (fun r => r.id)) else []) ∧
    (deletesOf (executeTrace cfg sheet input).1).flatten =
      (if cfg.clearFirst then sheet.rows.map (fun r => r.id) else []) := by
  have hdel : deletesOf (executeTrace cfg sheet input).1 = deletesOf (clearOps cfg sheet) := by
    rw [executeTrace_eq]
    split
    · cases href : refColumnIdOf cfg (clearedSheet cfg sheet) with
      | some refId =>
        show deletesOf (clearOps cfg sheet ++ mainOps cfg (clearedSheet cfg sheet) input refId) = _
        rw [deletesOf_append, deletesOf_mainOps, List.append_nil]
      | none => rfl
    · rfl
  have hmain : deletesOf (executeTrace cfg sheet input).1 =
      (if cfg.clearFirst then deleteChunks (sheet.rows.map (fun r => r.id)) else []) := by
    rw [hdel, deletesOf_clearOps]
  refine ⟨rfl, hmain, ?_⟩
  rw [hmain]
  split
  · exact deleteChunks_flatten _
  · rfl

/-- C2 counterexample: with the clear-sheet-first flag set and the reference
column absent from the input columns, `execute` deletes all rows of the sheet
*before* raising `InvalidParametersError`: the trace shows a deletion issued
although the configuration error is raised. -/
theorem c2_deletion_before_check_counterexample :
    executeTrace (Config.mk "ref" true false)
        (SSheet.mk [SColumn.mk 2 "other" "TEXT_NUMBER"] [SRow.mk 1 [SCell.mk 2 (some (.int 5))]])
        (InputTable.mk ["x"] []) =
      ([RemoteOp.deleteRows [1]], some "Reference column not found in input columns") ∧
    RemoteOp.deleteRows [1] ∈
      (executeTrace (Config.mk "ref" true false)
        (SSheet.mk [SColumn.mk 2 "other" "TEXT_NUMBER"] [SRow.mk 1 [SCell.mk 2 (some (.int 5))]])
        (InputTable.mk ["x"] [])).1 := by decide

/-- C2 amended: if the reference column title is absent from the input columns
or from the remote columns, `execute` raises `InvalidParametersError` before
any update or insert mutation, and before any deletion when the
clear-sheet-first flag is unset; with the flag set the clearing deletion has
already been issued when the error is raised. -/
theorem c2_ref_check_amended (cfg : Config) (sheet : SSheet) (input : InputTable)
    (h : cfg.referenceColumn ∉ inputColumns input ∨
      cfg.referenceColumn ∉ sheet.columns.map (fun c => c.title)) :
    (executeTrace cfg sheet input).2.isSome = true ∧
    (executeTrace cfg sheet input).1 = clearOps cfg sheet ∧
    (∀ op ∈ (executeTrace cfg sheet input).1, ∃ ids, op = RemoteOp.deleteRows ids) ∧
    (cfg.clearFirst = false → (executeTrace cfg sheet input).1 = []) := by
  have key : (executeTrace cfg sheet input).1 = clearOps cfg sheet ∧
      (executeTrace cfg sheet input).2.isSome = true := by
    rw [executeTrace_eq]
    by_cases hin : cfg.referenceColumn ∈ inputColumns input
    · rw [if_pos hin]
      have hout : cfg.referenceColumn ∉ sheet.columns.map (fun c => c.title) :=
        h.resolve_left (fun hno => hno hin)
      have hnone : refColumnIdOf cfg (clearedSheet cfg sheet) = Option.none := by
        rw [refColumnIdOf_cleared, refColumnIdOf_none_iff]
        exact hout
      rw [hnone]
      exact ⟨rfl, rfl⟩
    · rw [if_neg hin]
      exact ⟨rfl, rfl⟩
  refine ⟨key.2, key.1, ?_, ?_⟩
  · rw [key.1]
    exact clearOps_shape cfg sheet
  · intro hcf
    rw [key.1, clearOps, if_neg (by simp [hcf])]

theorem c2_ref_check_amended_witness :
    (("ref" : String) ∉ inputColumns (InputTable.mk ["x"] []) ∨
      ("ref" : String) ∉ (SSheet.mk [SColumn.mk 2 "other" "TEXT_NUMBER"] []).columns.map
        (fun c => c.title)) ∧
    ((executeTrace (Config.mk "ref" false false) (SSheet.mk [SColumn.mk 2 "other" "TEXT_NUMBER"] [])
        (InputTable.mk ["x"] [])).2.isSome = true ∧
      (executeTrace (Config.mk "ref" false false) (SSheet.mk [SColumn.mk 2 "other" "TEXT_NUMBER"] [])
        (InputTable.mk ["x"] [])).1 =
          clearOps (Config.mk "ref" false false) (SSheet.mk [SColumn.mk 2 "other" "TEXT_NUMBER"] []) ∧
      (∀ op ∈ (executeTrace (Config.mk "ref" false false)
          (SSheet.mk [SColumn.mk 2 "other" "TEXT_NUMBER"] []) (InputTable.mk ["x"] [])).1,
        ∃ ids, op = RemoteOp.deleteRows ids) ∧
      ((Config.mk "ref" false false).clearFirst = false →
        (executeTrace (Config.mk "ref" false false) (SSheet.mk [SColumn.mk 2 "other" "TEXT_NUMBER"] [])
          (InputTable.mk ["x"] [])).1 = [])) :=
  ⟨Or.inl (by decide),
    c2_ref_check_amended (Config.mk "ref" false false)
      (SSheet.mk [SColumn.mk 2 "other" "TEXT_NUMBER"] []) (InputTable.mk ["x"] [])
      (Or.inl (by decide))⟩

theorem outputColumns_of_nodup {sheet : SSheet}
    (htitles : (sheet.columns.map (fun c => c.title)).Nodup) :
    outputColumns sheet = sheet.columns.map (fun c => (c.title, c.id)) := by
  rw [outputColumns]
  apply buildDict_eq_self
  rw [List.map_map]
  exact htitles

theorem outputColumnsNameById_of_nodup {sheet : SSheet}
    (htitles : (sheet.columns.map (fun c => c.title)).Nodup)
    (hids : (sheet.columns.map (fun c => c.id)).Nodup) :
    outputColumnsNameById sheet = sheet.columns.map (fun c => (c.id, c.title)) := by
  have h1 : (outputColumns sheet).map (fun p => (p.2, p.1)) =
      sheet.columns.map (fun c => (c.id, c.title)) := by
    rw [outputColumns_of_nodup htitles, List.map_map]
    rfl
  rw [outputColumnsNameById, h1]
  apply buildDict_eq_self
  rw [List.map_map]
  exact hids

theorem columnsType_of_nodup {sheet : SSheet}
    (hids : (sheet.columns.map (fun c => c.id)).Nodup) :
    columnsType sheet = sheet.columns.map (fun c => (c.id, c.type)) := by
  rw [columnsType]
  apply buildDict_eq_self
  rw [List.map_map]
  exact hids

theorem buildUpdatedRow_cells {cfg : Config} {sheet : SSheet} {input : InputTable}
    {ref : PyVal} {rowId : Nat} {targetRow : SRow} {c : SCell}
    (hc : c ∈ (buildUpdatedRow cfg sheet input ref rowId targetRow).cells) :
    ∃ oldCell ∈ targetRow.cells, ∃ title,
      alLookup (outputColumnsNameById sheet) oldCell.column_id = some title ∧
      title ∈ syncedColumns cfg input ∧
      c.column_id = oldCell.column_id := by
  rw [buildUpdatedRow] at hc
  simp only [List.mem_filterMap] at hc
  obtain ⟨oldCell, hold, hf⟩ := hc
  split at hf
  · rename_i title heq
    split at hf
    · rename_i hin
      simp only [Option.some.injEq] at hf
      exact ⟨oldCell, hold, title, heq, hin, by rw [← hf]⟩
    · simp at hf
  · simp at hf

/-- C3: reference column exclusion.  With well-formed sheet columns (distinct
ids and distinct titles), every cell of every row of every `update_rows` batch
in the trace carries a column id different from the reference column's id, and
that id belongs to a sheet column whose title is an input column other than
the reference column. -/
theorem c3_reference_column_exclusion (cfg : Config) (sheet : SSheet) (input : InputTable)
    (hids : (sheet.columns.map (fun c => c.id)).Nodup)
    (htitles : (sheet.columns.map (fun c => c.title)).Nodup) :
    ∀ urows, RemoteOp.updateRows urows ∈ (executeTrace cfg sheet input).1 →
      ∀ r ∈ urows, ∀ c ∈ r.cells,
        some c.column_id ≠ refColumnIdOf cfg sheet ∧
        ∃ col ∈ sheet.columns, col.id = c.column_id ∧
          col.title ∈ inputColumns input ∧ col.title ≠ cfg.referenceColumn := by
  intro urows hmem r hr c hc
  have hmain : ∃ refId,
      RemoteOp.updateRows urows ∈ mainOps cfg (clearedSheet cfg sheet) input refId := by
    rw [executeTrace_eq] at hmem
    by_cases hin : cfg.referenceColumn ∈ inputColumns input
    · rw [if_pos hin] at hmem
      cases href : refColumnIdOf cfg (clearedSheet cfg sheet) with
      | some refId =>
        rw [href] at hmem
        have hmem' : RemoteOp.updateRows urows ∈
            clearOps cfg sheet ++ mainOps cfg (clearedSheet cfg sheet) input refId := hmem
        rcases List.mem_append.mp hmem' with hmem2 | hmem2
        · obtain ⟨ids, hop⟩ := clearOps_shape cfg sheet _ hmem2
          simp at hop
        · exact ⟨refId, hmem2⟩
      | none =>
        rw [href] at hmem
        obtain ⟨ids, hop⟩ := clearOps_shape cfg sheet _ hmem
        simp at hop
    · rw [if_neg hin] at hmem
      obtain ⟨ids, hop⟩ := clearOps_shape cfg sheet _ hmem
      simp at hop
  obtain ⟨refId, hmo⟩ := hmain
  rcases mainOps_mem cfg _ input refId _ hmo with ⟨urows', hequ, hrows⟩ | ⟨nrows, hne, _, _⟩
  · have hru : urows = urows' := by
      injection hequ
    rw [hru, hrows] at hr
    obtain ⟨p, hp, hrb⟩ := List.mem_map.mp hr
    rw [← hrb] at hc
    obtain ⟨oldCell, hold, title, hl, ht, hcid⟩ := buildUpdatedRow_cells hc
    rw [outputColumnsNameById_cleared, outputColumnsNameById_of_nodup htitles hids] at hl
    obtain ⟨col, hcol, hceq⟩ := List.mem_map.mp (mem_of_alLookup_eq_some hl)
    have hcolid : col.id = oldCell.column_id := congrArg Prod.fst hceq
    have hcoltitle : col.title = title := congrArg Prod.snd hceq
    rw [syncedColumns] at ht
    obtain ⟨htin, htne⟩ := List.mem_filter.mp ht
    have htne' : title ≠ cfg.referenceColumn := by simpa using htne
    constructor
    · intro hrefl
      have hre : refColumnIdOf cfg sheet = some c.column_id := hrefl.symm
      rw [refColumnIdOf, outputColumns_of_nodup htitles] at hre
      obtain ⟨col2, hcol2, hceq2⟩ := List.mem_map.mp (mem_of_alLookup_eq_some hre)
      have hcol2t : col2.title = cfg.referenceColumn := congrArg Prod.fst hceq2
      have hcol2id : col2.id = c.column_id := congrArg Prod.snd hceq2
      have hsameid : (fun col : SColumn => col.id) col = (fun col : SColumn => col.id) col2 := by
        show col.id = col2.id
        rw [hcolid, hcol2id, hcid]
      have hcc : col = col2 := List.inj_on_of_nodup_map hids hcol hcol2 hsameid
      rw [hcc, hcol2t] at hcoltitle
      exact htne' hcoltitle.symm
    · refine ⟨col, hcol, ?_, ?_, ?_⟩
      · rw [hcolid, hcid]
      · rw [hcoltitle]
        exact htin
      · rw [hcoltitle]
        exact htne'
  · exact absurd hne (by simp)

theorem c3_reference_column_exclusion_witness :
    ((SSheet.mk [SColumn.mk 1 "ref" "TEXT_NUMBER", SColumn.mk 2 "x" "TEXT_NUMBER"]
        [SRow.mk 10 [SCell.mk 1 (some (.str "A")), SCell.mk 2 (some (.int 0))]]).columns.map
      (fun c => c.id)).Nodup ∧
    ((SSheet.mk [SColumn.mk 1 "ref" "TEXT_NUMBER", SColumn.mk 2 "x" "TEXT_NUMBER"]
        [SRow.mk 10 [SCell.mk 1 (some (.str "A")), SCell.mk 2 (some (.int 0))]]).columns.map
      (fun c => c.title)).Nodup ∧
    (∀ urows, RemoteOp.updateRows urows ∈
        (executeTrace (Config.mk "ref" false false)
          (SSheet.mk [SColumn.mk 1 "ref" "TEXT_NUMBER", SColumn.mk 2 "x" "TEXT_NUMBER"]
            [SRow.mk 10 [SCell.mk 1 (some (.str "A")), SCell.mk 2 (some (.int 0))]])
          (InputTable.mk ["ref", "x"] [[("ref", some (.str "A")), ("x", some (.int 1))]])).1 →
      ∀ r ∈ urows, ∀ c ∈ r.cells,
        some c.column_id ≠ refColumnIdOf (Config.mk "ref" false false)
          (SSheet.mk [SColumn.mk 1 "ref" "TEXT_NUMBER", SColumn.mk 2 "x" "TEXT_NUMBER"]
            [SRow.mk 10 [SCell.mk 1 (some (.str "A")), SCell.mk 2 (some (.int 0))]]) ∧
        ∃ col ∈ (SSheet.mk [SColumn.mk 1 "ref" "TEXT_NUMBER", SColumn.mk 2 "x" "TEXT_NUMBER"]
            [SRow.mk 10 [SCell.mk 1 (some (.str "A")), SCell.mk 2 (some (.int 0))]]).columns,
          col.id = c.column_id ∧
          col.title ∈ inputColumns
            (InputTable.mk ["ref", "x"] [[("ref", some (.str "A")), ("x", some (.int 1))]]) ∧
          col.title ≠ (Config.mk "ref" false false).referenceColumn) :=
  ⟨by decide, by decide,
    c3_reference_column_exclusion (Config.mk "ref" false false)
      (SSheet.mk [SColumn.mk 1 "ref" "TEXT_NUMBER", SColumn.mk 2 "x" "TEXT_NUMBER"]
        [SRow.mk 10 [SCell.mk 1 (some (.str "A")), SCell.mk 2 (some (.int 0))]])
      (InputTable.mk ["ref", "x"] [[("ref", some (.str "A")), ("x", some (.int 1))]])
      (by decide) (by decide)⟩

theorem find_ref_aux (refCol : String) (ref : PyVal) :
    ∀ rows : List InputRow,
      ((rows.map (fun r => rowGet r refCol)).Pairwise (fun a b => pyEq a b = false)) →
      ref ∈ rows.map (fun r => rowGet r refCol) →
      rowGet ((rows.find? (fun r => pyEq (rowGet r refCol) ref)).getD []) refCol = ref := by
  intro rows
  induction rows with
  | nil =>
    intro _ h
    simp at h
  | cons r t ih =>
    intro hU hmem
    simp only [List.map_cons, List.pairwise_cons] at hU
    rw [List.map_cons] at hmem
    by_cases hr : pyEq (rowGet r refCol) ref = true
    · rw [List.find?_cons_of_pos _ (by simpa using hr)]
      simp only [Option.getD_some]
      rcases List.mem_cons.mp hmem with heq | hmemt
      · exact heq.symm
      · exact absurd hr (by simp [hU.1 ref hmemt])
    · rw [List.find?_cons_of_neg _ (by simpa using hr)]
      apply ih hU.2
      rcases List.mem_cons.mp hmem with heq | hmemt
      · exfalso
        apply hr
        rw [← heq] at hr ⊢
        exact pyEq_refl ref
      · exact hmemt

/-- `.loc` on a uniquely-keyed input finds the reference's own row, whose
index label is the reference itself. -/
theorem inputLoc_ref {cfg : Config} {input : InputTable} {ref : PyVal}
    (hU : (inputRefs cfg input).Pairwise (fun a b => pyEq a b = false))
    (hmem : ref ∈ inputRefs cfg input) :
    rowGet (inputLoc cfg input ref) cfg.referenceColumn = ref := by
  rw [inputRefs] at hU hmem
  rw [inputLoc]
  exact find_ref_aux cfg.referenceColumn ref input.rows hU hmem

theorem filterMap_ite {α β : Type} (p : α → Prop) [DecidablePred p] (f : α → β) :
    ∀ l : List α,
      (l.filterMap (fun a => if p a then some (f a) else Option.none)) =
        (l.filter (fun a => decide (p a))).map f := by
  intro l
  induction l with
  | nil => rfl
  | cons a t ih =>
    by_cases h : p a
    · simp [List.filterMap_cons, List.filter_cons, h, ih]
    · simp [List.filterMap_cons, List.filter_cons, h, ih]

theorem buildNewRow_cells_eq {cfg : Config} {sheet : SSheet} {input : InputTable} {ref : PyVal}
    (htitles : (sheet.columns.map (fun c => c.title)).Nodup) :
    (buildNewRow cfg sheet input ref).cells =
      (sheet.columns.filter (fun col => decide (col.title ∈ inputColumns input))).map
        (fun col => SCell.mk col.id (some (get_smartsheet_cell_value
          (if col.title ≠ cfg.referenceColumn then rowGet (inputLoc cfg input ref) col.title
           else indexLabel cfg (inputLoc cfg input ref))
          ((alLookup (columnsType sheet) col.id).getD "")))) := by
  show (outputColumns sheet).filterMap _ = _
  rw [outputColumns_of_nodup htitles, List.filterMap_map]
  exact filterMap_ite (fun col : SColumn => col.title ∈ inputColumns input) _ sheet.columns

/-- C5 amended: when insertion is enabled, every insert action in the trace is
built by `buildNewRow` from a missing reference (a member of the input
references); the cell emitted for the reference column carries the coerced
image of exactly that reference — `get_smartsheet_cell_value` applied to the
logical key, taken from the row's index label, not from a record field — and
the action covers exactly the remote columns whose titles are input columns. -/
theorem c5_insert_key_integrity_amended (cfg : Config) (sheet : SSheet) (input : InputTable)
    (hids : (sheet.columns.map (fun c => c.id)).Nodup)
    (htitles : (sheet.columns.map (fun c => c.title)).Nodup)
    (hU : (inputRefs cfg input).Pairwise (fun a b => pyEq a b = false))
    (hin : cfg.referenceColumn ∈ inputColumns input) :
    (∀ nrows, RemoteOp.addRows nrows ∈ (executeTrace cfg sheet input).1 →
      cfg.addMissingRefs = true ∧
      ∃ refId, nrows = (missingOf (inputRefs cfg input)
          (buildPlan refId (inputRefs cfg input) (clearedSheet cfg sheet).rows)).map
        (fun ref => buildNewRow cfg (clearedSheet cfg sheet) input ref)) ∧
    (∀ st : PlanState, ∀ ref ∈ missingOf (inputRefs cfg input) st, ref ∈ inputRefs cfg input) ∧
    (∀ ref ∈ inputRefs cfg input, ∀ col ∈ sheet.columns, col.title = cfg.referenceColumn →
      SCell.mk col.id (some (get_smartsheet_cell_value ref col.type)) ∈
        (buildNewRow cfg sheet input ref).cells) ∧
    (∀ ref ∈ inputRefs cfg input,
      (∀ c ∈ (buildNewRow cfg sheet input ref).cells,
        ∃ col ∈ sheet.columns, col.title ∈ inputColumns input ∧ c.column_id = col.id) ∧
      (∀ col ∈ sheet.columns, col.title ∈ inputColumns input →
        ∃ c ∈ (buildNewRow cfg sheet input ref).cells, c.column_id = col.id)) := by
  refine ⟨?_, ?_, ?_, ?_⟩
  · intro nrows hmem
    have hmain : ∃ refId,
        RemoteOp.addRows nrows ∈ mainOps cfg (clearedSheet cfg sheet) input refId := by
      rw [executeTrace_eq] at hmem
      by_cases hin2 : cfg.referenceColumn ∈ inputColumns input
      · rw [if_pos hin2] at hmem
        cases href : refColumnIdOf cfg (clearedSheet cfg sheet) with
        | some refId =>
          rw [href] at hmem
          have hmem' : RemoteOp.addRows nrows ∈
              clearOps cfg sheet ++ mainOps cfg (clearedSheet cfg sheet) input refId := hmem
          rcases List.mem_append.mp hmem' with hmem2 | hmem2
          · obtain ⟨ids, hop⟩ := clearOps_shape cfg sheet _ hmem2
            simp at hop
          · exact ⟨refId, hmem2⟩
        | none =>
          rw [href] at hmem
          obtain ⟨ids, hop⟩ := clearOps_shape cfg sheet _ hmem
          simp at hop
      · rw [if_neg hin2] at hmem
        obtain ⟨ids, hop⟩ := clearOps_shape cfg sheet _ hmem
        simp at hop
    obtain ⟨refId, hmo⟩ := hmain
    rcases mainOps_mem cfg _ input refId _ hmo with ⟨urows, hequ, _⟩ | ⟨nrows', hne, hadd, hrows⟩
    · exact absurd hequ (by simp)
    · have hnn : nrows = nrows' := by
        injection hne
      exact ⟨hadd, refId, hnn ▸ hrows⟩
  · intro st ref h
    exact (List.mem_filter.mp h).1
  · intro ref hmem col hcol hcoltitle
    rw [buildNewRow_cells_eq htitles]
    refine List.mem_map.mpr ⟨col, List.mem_filter.mpr ⟨hcol, by simp [hcoltitle, hin]⟩, ?_⟩
    have hl : alLookup (sheet.columns.map (fun c => (c.id, c.type))) col.id = some col.type := by
      apply alLookup_eq_some_of_mem
      · rw [List.map_map]
        exact hids
      · exact List.mem_map.mpr ⟨col, hcol, rfl⟩
    have htype : (alLookup (columnsType sheet) col.id).getD "" = col.type := by
      rw [columnsType_of_nodup hids, hl]
      rfl
    rw [htype, if_neg (by simp [hcoltitle])]
    rw [indexLabel, inputLoc_ref hU hmem]
  · intro ref _
    constructor
    · intro c hc
      rw [buildNewRow_cells_eq htitles] at hc
      obtain ⟨col, hcolf, hceq⟩ := List.mem_map.mp hc
      obtain ⟨hcol, hcolt⟩ := List.mem_filter.mp hcolf
      exact ⟨col, hcol, by simpa using hcolt, by rw [← hceq]⟩
    · intro col hcol hcolt
      rw [buildNewRow_cells_eq htitles]
      exact ⟨_, List.mem_map.mpr ⟨col, List.mem_filter.mpr ⟨hcol, by simpa using hcolt⟩, rfl⟩, rfl⟩

/-- C5 counterexample: the emitted reference cell does not carry the missing
key itself but its coerced image.  For the missing key `"3"` (a string) on a
TEXT_NUMBER reference column, the insert action carries the integer 3, not the
string `"3"`. -/
theorem c5_insert_key_counterexample :
    executeTrace (Config.mk "ref" false true)
        (SSheet.mk [SColumn.mk 1 "ref" "TEXT_NUMBER"] [])
        (InputTable.mk ["ref"] [[("ref", some (.str "3"))]]) =
      ([RemoteOp.addRows [SRow.mk 0 [SCell.mk 1 (some (.int 3))]]], Option.none) ∧
    (some (PValue.int 3) : PyVal) ≠ some (PValue.str "3") := by decide

theorem c5_insert_key_integrity_amended_witness :
    (((SSheet.mk [SColumn.mk 1 "ref" "TEXT_NUMBER"] [])).columns.map (fun c => c.id)).Nodup ∧
    (((SSheet.mk [SColumn.mk 1 "ref" "TEXT_NUMBER"] [])).columns.map (fun c => c.title)).Nodup ∧
    (inputRefs (Config.mk "ref" false true) (InputTable.mk ["ref"] [[("ref", some (.str "A"))]])).Pairwise (fun a b => pyEq a b = false) ∧
    (Config.mk "ref" false true).referenceColumn ∈ inputColumns (InputTable.mk ["ref"] [[("ref", some (.str "A"))]]) ∧
    ((∀ nrows, RemoteOp.addRows nrows ∈ (executeTrace (Config.mk "ref" false true) (SSheet.mk [SColumn.mk 1 "ref" "TEXT_NUMBER"] []) (InputTable.mk ["ref"] [[("ref", some (.str "A"))]])).1 →
      (Config.mk "ref" false true).addMissingRefs = true ∧
      ∃ refId, nrows = (missingOf (inputRefs (Config.mk "ref" false true) (InputTable.mk ["ref"] [[("ref", some (.str "A"))]]))
          (buildPlan refId (inputRefs (Config.mk "ref" false true) (InputTable.mk ["ref"] [[("ref", some (.str "A"))]])) (clearedSheet (Config.mk "ref" false true) (SSheet.mk [SColumn.mk 1 "ref" "TEXT_NUMBER"] [])).rows)).map
        (fun ref => buildNewRow (Config.mk "ref" false true) (clearedSheet (Config.mk "ref" false true) (SSheet.mk [SColumn.mk 1 "ref" "TEXT_NUMBER"] [])) (InputTable.mk ["ref"] [[("ref", some (.str "A"))]]) ref)) ∧
    (∀ st : PlanState, ∀ ref ∈ missingOf (inputRefs (Config.mk "ref" false true) (InputTable.mk ["ref"] [[("ref", some (.str "A"))]])) st,
      ref ∈ inputRefs (Config.mk "ref" false true) (InputTable.mk ["ref"] [[("ref", some (.str "A"))]])) ∧
    (∀ ref ∈ inputRefs (Config.mk "ref" false true) (InputTable.mk ["ref"] [[("ref", some (.str "A"))]]), ∀ col ∈ ((SSheet.mk [SColumn.mk 1 "ref" "TEXT_NUMBER"] [])).columns,
      col.title = (Config.mk "ref" false true).referenceColumn →
      SCell.mk col.id (some (get_smartsheet_cell_value ref col.type)) ∈
        (buildNewRow (Config.mk "ref" false true) (SSheet.mk [SColumn.mk 1 "ref" "TEXT_NUMBER"] []) (InputTable.mk ["ref"] [[("ref", some (.str "A"))]]) ref).cells) ∧
    (∀ ref ∈ inputRefs (Config.mk "ref" false true) (InputTable.mk ["ref"] [[("ref", some (.str "A"))]]),
      (∀ c ∈ (buildNewRow (Config.mk "ref" false true) (SSheet.mk [SColumn.mk 1 "ref" "TEXT_NUMBER"] []) (InputTable.mk ["ref"] [[("ref", some (.str "A"))]]) ref).cells,
        ∃ col ∈ ((SSheet.mk [SColumn.mk 1 "ref" "TEXT_NUMBER"] [])).columns, col.title ∈ inputColumns (InputTable.mk ["ref"] [[("ref", some (.str "A"))]]) ∧ c.column_id = col.id) ∧
      (∀ col ∈ ((SSheet.mk [SColumn.mk 1 "ref" "TEXT_NUMBER"] [])).columns, col.title ∈ inputColumns (InputTable.mk ["ref"] [[("ref", some (.str "A"))]]) →
        ∃ c ∈ (buildNewRow (Config.mk "ref" false true) (SSheet.mk [SColumn.mk 1 "ref" "TEXT_NUMBER"] []) (InputTable.mk ["ref"] [[("ref", some (.str "A"))]]) ref).cells, c.column_id = col.id))) :=
  ⟨by decide, by decide, by decide, by decide,
    c5_insert_key_integrity_amended (Config.mk "ref" false true) (SSheet.mk [SColumn.mk 1 "ref" "TEXT_NUMBER"] []) (InputTable.mk ["ref"] [[("ref", some (.str "A"))]])
      (by decide) (by decide) (by decide) (by decide)⟩
